import Mathlib

/-
  Verification of the sale transaction engine of the Pharma_Projet
  point-of-sale system (cart, stock checks, loyalty discount/points,
  sale commit and cancellation).

  Shallow embedding conventions:
  * Monetary values are exact rationals (`ℚ`).  Python's
    `FormatUtils.round_currency` (Decimal ROUND_HALF_UP) is modelled by
    `roundHalfUp2`; Python's builtin `round(x, 2)` (round half to even)
    is modelled by `roundHalfEven2`.  Floating-point representation
    error is not modelled.
  * The SQLite tables are modelled as Lean lists; an SQL `UPDATE ... WHERE`
    is a `List.map` guarded by the row predicate, and `rowcount > 0`
    is `List.any`.
  * Timestamps (`sale_date`, `created_at`) and display-only fields are
    omitted; the `generate_sale_number` daily-date component is abstracted
    into a running sequence number (no claim concerns the number format).
  * Stateful services thread an explicit `PharmacyState`; the ambient
    `AuthService.get_current_user` singleton becomes the `current_user`
    field.  Python exceptions do not arise in the modelled fragment for
    the well-formed states used by the theorems (the dataclass
    `__post_init__` guards hold there by hypothesis).
-/

namespace Pharma

/-- FormatUtils.round_currency: round to 2 decimals, half away from zero
(Decimal ROUND_HALF_UP). -/
def roundHalfUp2 (q : ℚ) : ℚ :=
  if q < 0 then -(((Rat.floor ((-q) * 100 + 1/2) : ℤ) : ℚ) / 100)
  else ((Rat.floor (q * 100 + 1/2) : ℤ) : ℚ) / 100

/-- Python builtin round(x, 2): round to 2 decimals, ties to even. -/
def roundHalfEven2 (q : ℚ) : ℚ :=
  let n : ℤ := Rat.floor (q * 100)
  let r : ℚ := q * 100 - (n : ℚ)
  let k : ℤ :=
    if r < 1/2 then n
    else if (1 : ℚ)/2 < r then n + 1
    else if n % 2 = 0 then n else n + 1
  (k : ℚ) / 100

/-- A value that is a whole number of cents (2-decimal amount). -/
def IsCents (q : ℚ) : Prop := ∃ n : ℤ, q = (n : ℚ) / 100

/-- Rat.floor (used so the definitions evaluate) agrees with Int.floor. -/
@[simp]
theorem ratFloor_eq_floor (q : ℚ) : Rat.floor q = Int.floor q := by
  rw [Rat.floor_def', Rat.floor_def]

/-- models/medicament.py: the fields used by the sale engine
(code, prices paid, threshold, expiry and display fields are omitted). -/
structure Medicament where
  id : ℕ
  name : String
  selling_price : ℚ
  quantity_in_stock : ℤ
  is_active : Bool
deriving DecidableEq

/-- models/client.py: the fields used by the loyalty engine. -/
structure Client where
  id : ℕ
  loyalty_points : ℤ
  total_spent : ℚ
  is_active : Bool
deriving DecidableEq

/-- models/loyalty_tier.py. -/
structure LoyaltyTier where
  name : String
  min_points : ℤ
  discount_percentage : ℚ
  is_active : Bool
deriving DecidableEq

/-- models/stock_movement.py (timestamp omitted). -/
structure StockMovement where
  medicament_id : ℕ
  user_id : ℕ
  movement_type : String
  quantity : ℤ
  reference_id : Option ℕ
  reason : String
deriving DecidableEq

/-- models/sale_line.py (row id and display fields omitted). -/
structure SaleLine where
  sale_id : ℕ
  medicament_id : ℕ
  quantity : ℤ
  unit_price : ℚ
  line_total : ℚ
deriving DecidableEq

/-- models/sale.py (sale_date, created_at and display fields omitted). -/
structure Sale where
  id : ℕ
  sale_number : String
  user_id : ℕ
  client_id : Option ℕ
  subtotal : ℚ
  discount_percentage : ℚ
  discount_amount : ℚ
  total : ℚ
  loyalty_points_earned : ℤ
  loyalty_points_used : ℤ
  status : String
  lines : List SaleLine
deriving DecidableEq

/-- services/sale_service.py CartItem dataclass. -/
structure CartItem where
  medicament : Medicament
  quantity : ℤ
  unit_price : ℚ
deriving DecidableEq

/-- CartItem.line_total property. -/
def CartItem.line_total (it : CartItem) : ℚ :=
  roundHalfUp2 ((it.quantity : ℚ) * it.unit_price)

/-- services/sale_service.py Cart dataclass. -/
structure Cart where
  items : List CartItem
  client : Option Client
deriving DecidableEq

/-- Cart.subtotal property. -/
def Cart.subtotal (c : Cart) : ℚ :=
  roundHalfUp2 ((c.items.map CartItem.line_total).sum)

/-- Cart.items_count property. -/
def Cart.items_count (c : Cart) : ℤ :=
  (c.items.map CartItem.quantity).sum

/-- config.py MovementType constants. -/
def MovementType.ENTRY : String := "entry"

def MovementType.EXIT : String := "exit"

def MovementType.ADJUSTMENT : String := "adjustment"

namespace MedicamentRepository

/-- database/medicament_repository.py get_by_id. -/
def get_by_id (meds : List Medicament) (mid : ℕ) : Option Medicament :=
  meds.find? (fun m => m.id == mid)

/-- The per-row effect of update_stock's SQL UPDATE: a row is changed
when it matches the id and the floor-at-zero guard in the WHERE clause. -/
def stock_row (mid : ℕ) (quantity_change : ℤ) (m : Medicament) : Medicament :=
  if m.id == mid && decide (0 ≤ m.quantity_in_stock + quantity_change) then
    { m with quantity_in_stock := m.quantity_in_stock + quantity_change }
  else m

/-- database/medicament_repository.py update_stock: SQL UPDATE with the
floor-at-zero guard in the WHERE clause; returns rowcount > 0 and the
updated table. -/
def update_stock (meds : List Medicament) (mid : ℕ) (quantity_change : ℤ) :
    Bool × List Medicament :=
  (meds.any (fun m => m.id == mid && decide (0 ≤ m.quantity_in_stock + quantity_change)),
   meds.map (stock_row mid quantity_change))

/-- database/medicament_repository.py update: full-row SQL UPDATE by id. -/
def update (meds : List Medicament) (m : Medicament) : Bool × List Medicament :=
  (meds.any (fun x => x.id == m.id),
   meds.map (fun x => if x.id == m.id then m else x))

end MedicamentRepository

namespace ClientRepository

/-- database/client_repository.py get_by_id. -/
def get_by_id (clients : List Client) (cid : ℕ) : Option Client :=
  clients.find? (fun c => c.id == cid)

/-- The per-row effect of update_loyalty_points's SQL UPDATE: a row is
changed when it matches the id and the balance-never-negative guard. -/
def points_row (cid : ℕ) (points_change : ℤ) (c : Client) : Client :=
  if c.id == cid && decide (0 ≤ c.loyalty_points + points_change) then
    { c with loyalty_points := c.loyalty_points + points_change }
  else c

/-- database/client_repository.py update_loyalty_points: SQL UPDATE with
the balance-never-negative guard in the WHERE clause. -/
def update_loyalty_points (clients : List Client) (cid : ℕ) (points_change : ℤ) :
    Bool × List Client :=
  (clients.any (fun c => c.id == cid && decide (0 ≤ c.loyalty_points + points_change)),
   clients.map (points_row cid points_change))

/-- The per-row effect of update_total_spent's SQL UPDATE. -/
def spent_row (cid : ℕ) (amount : ℚ) (c : Client) : Client :=
  if c.id == cid then { c with total_spent := c.total_spent + amount } else c

/-- database/client_repository.py update_total_spent (unguarded). -/
def update_total_spent (clients : List Client) (cid : ℕ) (amount : ℚ) :
    Bool × List Client :=
  (clients.any (fun c => c.id == cid),
   clients.map (spent_row cid amount))

end ClientRepository

namespace LoyaltyTierRepository

/-- database/loyalty_tier_repository.py get_tier_for_points:
SELECT active tiers with min_points ≤ points ORDER BY min_points DESC
LIMIT 1 (among equal thresholds the earlier row is kept). -/
def get_tier_for_points (tiers : List LoyaltyTier) (points : ℤ) : Option LoyaltyTier :=
  (tiers.filter (fun t => t.is_active && decide (t.min_points ≤ points))).foldl
    (fun best t =>
      match best with
      | none => some t
      | some b => if b.min_points < t.min_points then some t else some b)
    none

end LoyaltyTierRepository

namespace LoyaltyService

/-- services/loyalty_service.py calculate_points_earned; the configured
LOYALTY_CONFIG points_per_unit is passed explicitly. -/
def calculate_points_earned (points_per_unit : ℚ) (amount : ℚ) : ℤ :=
  if amount ≤ 0 ∨ points_per_unit ≤ 0 then 0
  else Rat.floor (amount / points_per_unit)

/-- services/loyalty_service.py get_client_discount (via get_client_tier). -/
def get_client_discount (tiers : List LoyaltyTier) (client : Client) : ℚ :=
  match LoyaltyTierRepository.get_tier_for_points tiers client.loyalty_points with
  | none => 0
  | some t => t.discount_percentage

/-- services/loyalty_service.py apply_discount: returns
(final amount, discount percentage, discount amount); the two roundings
use Python builtin round, i.e. half-to-even. -/
def apply_discount (tiers : List LoyaltyTier) (amount : ℚ) (client : Option Client) :
    ℚ × ℚ × ℚ :=
  match client with
  | none => (amount, 0, 0)
  | some c =>
    if amount ≤ 0 then (amount, 0, 0)
    else
      let p := get_client_discount tiers c
      if p ≤ 0 then (amount, 0, 0)
      else
        let d := amount * (p / 100)
        (roundHalfEven2 (amount - d), p, roundHalfEven2 d)

/-- services/loyalty_service.py add_points_to_client. -/
def add_points_to_client (ppu : ℚ) (clients : List Client) (cid : ℕ) (amount : ℚ) :
    (Bool × ℤ × String) × List Client :=
  match ClientRepository.get_by_id clients cid with
  | none => ((false, 0, "Client non trouvé"), clients)
  | some c =>
    let points := calculate_points_earned ppu amount
    if 0 < points then
      let u := ClientRepository.update_loyalty_points clients cid points
      if u.1 then
        ((true, points,
          "+" ++ toString points ++ " points (Total: " ++ toString (c.loyalty_points + points) ++ ")"),
         u.2)
      else ((false, 0, "Erreur lors de l\u0027ajout des points"), u.2)
    else ((true, 0, "Aucun point gagné"), clients)

/-- services/loyalty_service.py use_client_points: refuses (does not clamp)
when the balance is smaller than the points to use. -/
def use_client_points (clients : List Client) (cid : ℕ) (points : ℤ) :
    (Bool × String) × List Client :=
  if points ≤ 0 then ((false, "Le nombre de points doit être positif"), clients)
  else
    match ClientRepository.get_by_id clients cid with
    | none => ((false, "Client non trouvé"), clients)
    | some c =>
      if c.loyalty_points < points then
        ((false, "Points insuffisants. Disponible: " ++ toString c.loyalty_points), clients)
      else
        let u := ClientRepository.update_loyalty_points clients cid (-points)
        if u.1 then ((true, toString points ++ " points utilisés"), u.2)
        else ((false, "Erreur lors de l\u0027utilisation des points"), u.2)

end LoyaltyService

/-- The mutable state threaded through the services: the four relevant
tables, the in-memory cart, the ambient session user and the loyalty
configuration constant. -/
structure PharmacyState where
  medicaments : List Medicament
  clients : List Client
  tiers : List LoyaltyTier
  movements : List StockMovement
  sales : List Sale
  cart : Cart
  current_user : Option ℕ
  points_per_unit : ℚ
deriving DecidableEq

namespace StockService

/-- services/stock_service.py _record_movement (ledger append; falls back
to user id 1 when no session user, as the source does). -/
def record_movement (st : PharmacyState) (mid : ℕ) (mtype : String) (qty : ℤ)
    (reason : String) (rid : Option ℕ) : PharmacyState :=
  let uid := match st.current_user with
    | some u => u
    | none => 1
  { st with movements := st.movements ++ [⟨mid, uid, mtype, qty, rid, reason⟩] }

/-- services/stock_service.py check_stock_availability. -/
def check_stock_availability (st : PharmacyState) (mid : ℕ) (qty : ℤ) : Bool × ℤ :=
  match MedicamentRepository.get_by_id st.medicaments mid with
  | none => (false, 0)
  | some m => (decide (qty ≤ m.quantity_in_stock), m.quantity_in_stock)

/-- services/stock_service.py add_stock. -/
def add_stock (st : PharmacyState) (mid : ℕ) (qty : ℤ) (reason : String) :
    (Bool × String) × PharmacyState :=
  if qty ≤ 0 then ((false, "La quantité doit être positive"), st)
  else
    match MedicamentRepository.get_by_id st.medicaments mid with
    | none => ((false, "Médicament non trouvé"), st)
    | some m =>
      let u := MedicamentRepository.update_stock st.medicaments mid qty
      if u.1 then
        ((true, "Stock ajouté. Nouveau stock: " ++ toString (m.quantity_in_stock + qty)),
         record_movement { st with medicaments := u.2 } mid MovementType.ENTRY qty reason none)
      else ((false, "Erreur lors de la mise à jour du stock"), { st with medicaments := u.2 })

/-- services/stock_service.py remove_stock. -/
def remove_stock (st : PharmacyState) (mid : ℕ) (qty : ℤ) (reason : String)
    (rid : Option ℕ) : (Bool × String) × PharmacyState :=
  if qty ≤ 0 then ((false, "La quantité doit être positive"), st)
  else
    match MedicamentRepository.get_by_id st.medicaments mid with
    | none => ((false, "Médicament non trouvé"), st)
    | some m =>
      if m.quantity_in_stock < qty then
        ((false, "Stock insuffisant. Disponible: " ++ toString m.quantity_in_stock), st)
      else
        let u := MedicamentRepository.update_stock st.medicaments mid (-qty)
        if u.1 then
          ((true, "Stock retiré. Nouveau stock: " ++ toString (m.quantity_in_stock - qty)),
           record_movement { st with medicaments := u.2 } mid MovementType.EXIT (-qty) reason rid)
        else ((false, "Erreur lors de la mise à jour du stock"), { st with medicaments := u.2 })

/-- services/stock_service.py adjust_stock (inventory set-to-value, via the
full-row repository update). -/
def adjust_stock (st : PharmacyState) (mid : ℕ) (new_quantity : ℤ) (reason : String) :
    (Bool × String) × PharmacyState :=
  if new_quantity < 0 then ((false, "La quantité ne peut pas être négative"), st)
  else
    match MedicamentRepository.get_by_id st.medicaments mid with
    | none => ((false, "Médicament non trouvé"), st)
    | some m =>
      let difference := new_quantity - m.quantity_in_stock
      if difference = 0 then ((true, "Le stock est déjà à cette valeur"), st)
      else
        let u := MedicamentRepository.update st.medicaments
          { m with quantity_in_stock := new_quantity }
        if u.1 then
          ((true, "Stock ajusté à " ++ toString new_quantity),
           record_movement { st with medicaments := u.2 } mid MovementType.ADJUSTMENT
             difference reason none)
        else ((false, "Erreur lors de l\u0027ajustement"), { st with medicaments := u.2 })

end StockService

namespace SaleRepository

/-- database/sale_repository.py get_by_id (including its lines). -/
def get_by_id (sales : List Sale) (sid : ℕ) : Option Sale :=
  sales.find? (fun s => s.id == sid)

/-- database/sale_repository.py cancel: UPDATE sales SET status =
cancelled WHERE id = ?. -/
def cancel (sales : List Sale) (sid : ℕ) : Bool × List Sale :=
  (sales.any (fun s => s.id == sid),
   sales.map (fun s => if s.id == sid then { s with status := "cancelled" } else s))

/-- database/sale_repository.py generate_sale_number; the per-day date
prefix and zero padding are abstracted into a running sequence. -/
def generate_sale_number (sales : List Sale) : String :=
  "VNT-" ++ toString (sales.length + 1)

/-- database/sale_repository.py create: INSERT the sale header (the fresh
autoincrement id is one more than the largest existing id) and its lines
carrying that id. -/
def create (sales : List Sale) (sale : Sale) : Sale × List Sale :=
  let sid := (sales.foldl (fun a s => max a s.id) 0) + 1
  let created := { sale with
    id := sid
    lines := sale.lines.map (fun l => { l with sale_id := sid }) }
  (created, created :: sales)

end SaleRepository

/-- The record returned by SaleService.calculate_totals. -/
structure Totals where
  subtotal : ℚ
  discount_percentage : ℚ
  discount_amount : ℚ
  total : ℚ
  points_earned : ℤ
  items_count : ℤ
deriving DecidableEq

namespace SaleService

/-- Quantity already in the cart for a medicine: the source scans the
items and takes the first line with that medicament id (0 if absent). -/
def cartQtyOf (items : List CartItem) (mid : ℕ) : ℤ :=
  match items.find? (fun it => it.medicament.id == mid) with
  | none => 0
  | some it => it.quantity

/-- Increment the quantity of the first cart line for the given medicine
(the source mutates the matching item in place). -/
def bumpFirst (items : List CartItem) (mid : ℕ) (qty : ℤ) : List CartItem :=
  match items with
  | [] => []
  | it :: rest =>
    if it.medicament.id == mid then { it with quantity := it.quantity + qty } :: rest
    else it :: bumpFirst rest mid qty

/-- services/sale_service.py add_to_cart. -/
def add_to_cart (st : PharmacyState) (mid : ℕ) (qty : ℤ) :
    (Bool × String) × PharmacyState :=
  if qty ≤ 0 then ((false, "La quantité doit être positive"), st)
  else
    match MedicamentRepository.get_by_id st.medicaments mid with
    | none => ((false, "Médicament non trouvé"), st)
    | some m =>
      if !m.is_active then ((false, "Ce médicament n\u0027est plus disponible"), st)
      else
        let current_in_cart := cartQtyOf st.cart.items mid
        let total_needed := current_in_cart + qty
        if m.quantity_in_stock < total_needed then
          ((false, "Stock insuffisant. Disponible: " ++
              toString (max 0 (m.quantity_in_stock - current_in_cart))), st)
        else
          let items1 :=
            if st.cart.items.any (fun it => it.medicament.id == mid) then
              bumpFirst st.cart.items mid qty
            else
              st.cart.items ++ [{ medicament := m, quantity := qty, unit_price := m.selling_price }]
          ((true, m.name ++ " ajouté au panier"),
           { st with cart := { st.cart with items := items1 } })

/-- services/sale_service.py calculate_totals: loyalty discount and
projected points only when a client is attached. -/
def calculate_totals (st : PharmacyState) : Totals :=
  let subtotal := st.cart.subtotal
  match st.cart.client with
  | some c =>
    let r := LoyaltyService.apply_discount st.tiers subtotal (some c)
    { subtotal := subtotal
      discount_percentage := r.2.1
      discount_amount := r.2.2
      total := roundHalfUp2 r.1
      points_earned := LoyaltyService.calculate_points_earned st.points_per_unit r.1
      items_count := st.cart.items_count }
  | none =>
    { subtotal := subtotal
      discount_percentage := 0
      discount_amount := 0
      total := roundHalfUp2 subtotal
      points_earned := 0
      items_count := st.cart.items_count }

/-- The Sale record built by validate_sale before persistence (status
completed, one line per cart item, points used 0). -/
def mkPendingSale (st : PharmacyState) (uid : ℕ) (totals : Totals) : Sale :=
  { id := 0
    sale_number := SaleRepository.generate_sale_number st.sales
    user_id := uid
    client_id := Option.map Client.id st.cart.client
    subtotal := totals.subtotal
    discount_percentage := totals.discount_percentage
    discount_amount := totals.discount_amount
    total := totals.total
    loyalty_points_earned := totals.points_earned
    loyalty_points_used := 0
    status := "completed"
    lines := st.cart.items.map (fun it =>
      { sale_id := 0
        medicament_id := it.medicament.id
        quantity := it.quantity
        unit_price := it.unit_price
        line_total := it.line_total }) }

/-- Commit step 5: per-line stock decrement loop; the Bool result of each
remove_stock call is discarded, exactly as in the source. -/
def removeLoop (st : PharmacyState) (items : List CartItem) (rid : Option ℕ) :
    PharmacyState :=
  items.foldl (fun s it =>
    (StockService.remove_stock s it.medicament.id it.quantity ("Vente") rid).2) st

/-- Cancellation stock restoration loop; results discarded as in the
source. -/
def addLoop (st : PharmacyState) (lines : List SaleLine) (reason : String) :
    PharmacyState :=
  lines.foldl (fun s l =>
    (StockService.add_stock s l.medicament_id l.quantity reason).2) st

/-- Commit step 6: credit loyalty points and lifetime spend when a client
is attached (results discarded as in the source). -/
def creditClient (st : PharmacyState) (client : Option Client) (amount : ℚ) :
    PharmacyState :=
  match client with
  | none => st
  | some c =>
    let a := LoyaltyService.add_points_to_client st.points_per_unit st.clients c.id amount
    let b := ClientRepository.update_total_spent a.2 c.id amount
    { st with clients := b.2 }

/-- The body of validate_sale after all validations passed (the source's
try block): create the sale, decrement stock per line, credit the client,
clear the cart.  The `mut` parameter is applied to the medicament table
after the Sale record is persisted and before the decrement loop; it
models a concurrent stock change in that window (the one concurrency
hazard named by the design) and is the identity for the plain
sequential run. -/
def commitPhase (st : PharmacyState) (interf : List Medicament → List Medicament)
    (uid : ℕ) : (Bool × String × Option Sale) × PharmacyState :=
  let totals := calculate_totals st
  let cr := SaleRepository.create st.sales (mkPendingSale st uid totals)
  let st1 : PharmacyState := { st with sales := cr.2, medicaments := interf st.medicaments }
  let st2 := removeLoop st1 st.cart.items (some cr.1.id)
  let st3 := creditClient st2 st.cart.client totals.total
  let st4 : PharmacyState := { st3 with cart := { items := [], client := none } }
  ((true, "Vente " ++ cr.1.sale_number ++ " enregistrée", some cr.1), st4)

/-- services/sale_service.py validate_sale with the concurrency-window
parameter (see commitPhase): empty-cart check, session-user check,
per-line live stock re-check, then the commit phase. -/
def validate_sale_mut (st : PharmacyState) (interf : List Medicament → List Medicament) :
    (Bool × String × Option Sale) × PharmacyState :=
  if st.cart.items.isEmpty then ((false, "Le panier est vide", none), st)
  else
    match st.current_user with
    | none => ((false, "Utilisateur non connecté", none), st)
    | some uid =>
      match st.cart.items.find? (fun it =>
          !(StockService.check_stock_availability st it.medicament.id it.quantity).1) with
      | some it => ((false, "Stock insuffisant pour " ++ it.medicament.name, none), st)
      | none => commitPhase st interf uid

/-- services/sale_service.py validate_sale (sequential run: nothing
interferes between persist and decrement). -/
def validate_sale (st : PharmacyState) : (Bool × String × Option Sale) × PharmacyState :=
  validate_sale_mut st (fun meds => meds)

/-- services/sale_service.py cancel_sale. -/
def cancel_sale (st : PharmacyState) (sid : ℕ) : (Bool × String) × PharmacyState :=
  match SaleRepository.get_by_id st.sales sid with
  | none => ((false, "Vente non trouvée"), st)
  | some sale =>
    if sale.status == "cancelled" then ((false, "Cette vente est déjà annulée"), st)
    else
      let cr := SaleRepository.cancel st.sales sid
      if cr.1 then
        let st1 : PharmacyState := { st with sales := cr.2 }
        let st2 := addLoop st1 sale.lines ("Annulation vente " ++ sale.sale_number)
        let st3 :=
          match sale.client_id with
          | some cid =>
            if cid ≠ 0 ∧ 0 < sale.loyalty_points_earned then
              { st2 with clients :=
                  (LoyaltyService.use_client_points st2.clients cid
                    sale.loyalty_points_earned).2 }
            else st2
          | none => st2
        ((true, "Vente annulée avec succès"), st3)
      else ((false, "Erreur lors de l\u0027annulation"), st)

end SaleService

/-- Observer: stock level of a medicine in a table. -/
def stockOf (meds : List Medicament) (mid : ℕ) : Option ℤ :=
  Option.map Medicament.quantity_in_stock (MedicamentRepository.get_by_id meds mid)

/-- Observer: loyalty point balance of a client in a table. -/
def pointsOf (clients : List Client) (cid : ℕ) : Option ℤ :=
  Option.map Client.loyalty_points (ClientRepository.get_by_id clients cid)

/-- Placeholder sale used only to project an optional result. -/
def emptySale : Sale :=
  { id := 0, sale_number := "", user_id := 0, client_id := none, subtotal := 0,
    discount_percentage := 0, discount_amount := 0, total := 0,
    loyalty_points_earned := 0, loyalty_points_used := 0, status := "", lines := [] }

/-- Observer: the sale carried by a validate_sale result. -/
def saleOfResult (r : (Bool × String × Option Sale) × PharmacyState) : Sale :=
  r.1.2.2.getD emptySale

/- ------------------------------------------------------------------
   Rounding lemmas
   ------------------------------------------------------------------ -/

theorem roundHalfUp2_nonneg (q : ℚ) (h : 0 ≤ q) : 0 ≤ roundHalfUp2 q := by
  unfold roundHalfUp2
  simp only [ratFloor_eq_floor]
  rw [if_neg (not_lt.mpr h)]
  apply div_nonneg _ (by norm_num)
  exact_mod_cast Int.floor_nonneg.mpr (by linarith)

theorem roundHalfUp2_isCents (q : ℚ) : IsCents (roundHalfUp2 q) := by
  unfold roundHalfUp2
  simp only [ratFloor_eq_floor]
  split
  · exact ⟨-Int.floor ((-q) * 100 + 1/2), by push_cast; ring⟩
  · exact ⟨Int.floor (q * 100 + 1/2), rfl⟩

theorem roundHalfEven2_isCents (q : ℚ) : IsCents (roundHalfEven2 q) := by
  unfold roundHalfEven2
  exact ⟨_, rfl⟩

theorem floor_one_half : Int.floor ((1 : ℚ)/2) = 0 := by
  rw [Int.floor_eq_zero_iff]
  constructor <;> norm_num

theorem floor_int_add_half (n : ℤ) : Int.floor ((n : ℚ) + 1/2) = n := by
  rw [Int.floor_int_add, floor_one_half, add_zero]

theorem roundHalfUp2_cents_fix (n : ℤ) : roundHalfUp2 ((n : ℚ)/100) = (n : ℚ)/100 := by
  unfold roundHalfUp2
  simp only [ratFloor_eq_floor]
  have h100 : ((n : ℚ)/100) * 100 = (n : ℚ) := by
    field_simp
  have hneg : (-((n : ℚ)/100)) * 100 = ((-n : ℤ) : ℚ) := by
    push_cast
    field_simp
  split
  · rw [hneg, floor_int_add_half]
    push_cast
    ring
  · rw [h100, floor_int_add_half]

theorem roundHalfUp2_fix (q : ℚ) (h : IsCents q) : roundHalfUp2 q = q := by
  obtain ⟨n, rfl⟩ := h
  exact roundHalfUp2_cents_fix n

theorem roundHalfEven2_cents_fix (n : ℤ) : roundHalfEven2 ((n : ℚ)/100) = (n : ℚ)/100 := by
  unfold roundHalfEven2
  simp only [ratFloor_eq_floor]
  have h100 : ((n : ℚ)/100) * 100 = (n : ℚ) := by field_simp
  rw [h100]
  simp only [Int.floor_intCast, sub_self]
  norm_num

theorem roundHalfEven2_fix (q : ℚ) (h : IsCents q) : roundHalfEven2 q = q := by
  obtain ⟨n, rfl⟩ := h
  exact roundHalfEven2_cents_fix n

theorem roundHalfEven2_nonneg (q : ℚ) (h : 0 ≤ q) : 0 ≤ roundHalfEven2 q := by
  unfold roundHalfEven2
  simp only [ratFloor_eq_floor]
  have hfl : (0 : ℤ) ≤ Int.floor (q * 100) := Int.floor_nonneg.mpr (by linarith)
  apply div_nonneg _ (by norm_num)
  split
  · exact_mod_cast hfl
  · split
    · exact_mod_cast (by omega : (0 : ℤ) ≤ Int.floor (q * 100) + 1)
    · split
      · exact_mod_cast hfl
      · exact_mod_cast (by omega : (0 : ℤ) ≤ Int.floor (q * 100) + 1)

theorem roundHalfEven2_le_cents (q : ℚ) (n : ℤ) (h : q ≤ (n : ℚ)/100) :
    roundHalfEven2 q ≤ (n : ℚ)/100 := by
  unfold roundHalfEven2
  simp only [ratFloor_eq_floor]
  have hq : q * 100 ≤ (n : ℚ) := by
    have : q * 100 ≤ ((n : ℚ)/100) * 100 := by
      apply mul_le_mul_of_nonneg_right h (by norm_num)
    calc q * 100 ≤ ((n : ℚ)/100) * 100 := this
      _ = (n : ℚ) := by field_simp
  have hm : Int.floor (q * 100) ≤ n := by
    have := Int.floor_mono hq
    simpa using this
  have key : ∀ k : ℤ, k ≤ n → (k : ℚ)/100 ≤ (n : ℚ)/100 := by
    intro k hk
    apply div_le_div_of_nonneg_right _ (by norm_num)
    exact_mod_cast hk
  by_cases hlt : q * 100 - (Int.floor (q * 100) : ℚ) < 1/2
  · simp only [if_pos hlt]
    exact key _ hm
  · -- the fractional part is at least 1/2, so floor < n strictly
    have hfrac : (1 : ℚ)/2 ≤ q * 100 - (Int.floor (q * 100) : ℚ) := le_of_not_lt hlt
    have hstrict : Int.floor (q * 100) < n := by
      rcases lt_or_eq_of_le hm with h1 | h1
      · exact h1
      · exfalso
        rw [h1] at hfrac
        have : q * 100 - (n : ℚ) ≤ 0 := by linarith
        linarith
    simp only [if_neg hlt]
    split
    · exact key _ (by omega)
    · split
      · exact key _ (by omega)
      · exact key _ (by omega)

theorem calculate_points_earned_nonneg (ppu amount : ℚ) :
    0 ≤ LoyaltyService.calculate_points_earned ppu amount := by
  unfold LoyaltyService.calculate_points_earned
  simp only [ratFloor_eq_floor]
  split
  · exact le_refl 0
  · rename_i h
    push_neg at h
    exact Int.floor_nonneg.mpr (div_nonneg (le_of_lt h.1) (le_of_lt h.2))

/- ------------------------------------------------------------------
   Lemmas about find? through keyed row updates
   ------------------------------------------------------------------ -/

theorem find?_map_keyfix {α : Type} (key : α → ℕ) (g : α → α)
    (hg : ∀ x, key (g x) = key x) (l : List α) (j : ℕ) :
    (l.map g).find? (fun x => key x == j) =
      Option.map g (l.find? (fun x => key x == j)) := by
  induction l with
  | nil => rfl
  | cons x xs ih =>
    by_cases h : (key x == j) = true
    · have hg2 : (key (g x) == j) = true := by rw [hg]; exact h
      rw [List.map_cons,
        @List.find?_cons_of_pos _ (fun y => key y == j) (g x) (xs.map g) hg2,
        @List.find?_cons_of_pos _ (fun y => key y == j) x xs h]
      rfl
    · have hg2 : ¬((key (g x) == j) = true) := by rw [hg]; exact h
      rw [List.map_cons,
        @List.find?_cons_of_neg _ (fun y => key y == j) (g x) (xs.map g) hg2,
        @List.find?_cons_of_neg _ (fun y => key y == j) x xs h]
      exact ih

theorem stock_row_id (mid : ℕ) (delta : ℤ) (m : Medicament) :
    (MedicamentRepository.stock_row mid delta m).id = m.id := by
  unfold MedicamentRepository.stock_row
  split <;> rfl

theorem points_row_id (cid : ℕ) (delta : ℤ) (c : Client) :
    (ClientRepository.points_row cid delta c).id = c.id := by
  unfold ClientRepository.points_row
  split <;> rfl

theorem spent_row_id (cid : ℕ) (amount : ℚ) (c : Client) :
    (ClientRepository.spent_row cid amount c).id = c.id := by
  unfold ClientRepository.spent_row
  split <;> rfl

theorem get_by_id_update_stock_ne (meds : List Medicament) (mid : ℕ) (delta : ℤ)
    (j : ℕ) (h : j ≠ mid) :
    MedicamentRepository.get_by_id (MedicamentRepository.update_stock meds mid delta).2 j =
      MedicamentRepository.get_by_id meds j := by
  unfold MedicamentRepository.get_by_id MedicamentRepository.update_stock
  rw [find?_map_keyfix Medicament.id _ (stock_row_id mid delta)]
  cases hf : meds.find? (fun m => m.id == j) with
  | none => rfl
  | some m =>
    have hmj : m.id = j := by
      have := List.find?_some hf
      simpa using this
    have hrow : MedicamentRepository.stock_row mid delta m = m := by
      unfold MedicamentRepository.stock_row
      rw [if_neg (by simp [hmj, h])]
    simp [hrow]

theorem get_by_id_update_stock_eq (meds : List Medicament) (mid : ℕ) (delta : ℤ)
    (m : Medicament) (hf : MedicamentRepository.get_by_id meds mid = some m)
    (hguard : 0 ≤ m.quantity_in_stock + delta) :
    MedicamentRepository.get_by_id (MedicamentRepository.update_stock meds mid delta).2 mid =
      some { m with quantity_in_stock := m.quantity_in_stock + delta } := by
  unfold MedicamentRepository.get_by_id MedicamentRepository.update_stock
  rw [find?_map_keyfix Medicament.id _ (stock_row_id mid delta)]
  unfold MedicamentRepository.get_by_id at hf
  rw [hf]
  have hmj : m.id = mid := by
    have := List.find?_some hf
    simpa using this
  have hrow : MedicamentRepository.stock_row mid delta m =
      { m with quantity_in_stock := m.quantity_in_stock + delta } := by
    unfold MedicamentRepository.stock_row
    rw [if_pos (by simp [hmj, hguard])]
  simp [hrow]

theorem update_stock_true (meds : List Medicament) (mid : ℕ) (delta : ℤ)
    (m : Medicament) (hf : MedicamentRepository.get_by_id meds mid = some m)
    (hguard : 0 ≤ m.quantity_in_stock + delta) :
    (MedicamentRepository.update_stock meds mid delta).1 = true := by
  unfold MedicamentRepository.get_by_id at hf
  have hmem : m ∈ meds := List.mem_of_find?_eq_some hf
  have hmj : m.id = mid := by
    have := List.find?_some hf
    simpa using this
  unfold MedicamentRepository.update_stock
  rw [List.any_eq_true]
  exact ⟨m, hmem, by simp [hmj, hguard]⟩

theorem get_by_id_update_points_ne (clients : List Client) (cid : ℕ) (delta : ℤ)
    (j : ℕ) (h : j ≠ cid) :
    ClientRepository.get_by_id (ClientRepository.update_loyalty_points clients cid delta).2 j =
      ClientRepository.get_by_id clients j := by
  unfold ClientRepository.get_by_id ClientRepository.update_loyalty_points
  rw [find?_map_keyfix Client.id _ (points_row_id cid delta)]
  cases hf : clients.find? (fun c => c.id == j) with
  | none => rfl
  | some c =>
    have hcj : c.id = j := by
      have := List.find?_some hf
      simpa using this
    have hrow : ClientRepository.points_row cid delta c = c := by
      unfold ClientRepository.points_row
      rw [if_neg (by simp [hcj, h])]
    simp [hrow]

theorem get_by_id_update_points_eq (clients : List Client) (cid : ℕ) (delta : ℤ)
    (c : Client) (hf : ClientRepository.get_by_id clients cid = some c)
    (hguard : 0 ≤ c.loyalty_points + delta) :
    ClientRepository.get_by_id (ClientRepository.update_loyalty_points clients cid delta).2 cid =
      some { c with loyalty_points := c.loyalty_points + delta } := by
  unfold ClientRepository.get_by_id ClientRepository.update_loyalty_points
  rw [find?_map_keyfix Client.id _ (points_row_id cid delta)]
  unfold ClientRepository.get_by_id at hf
  rw [hf]
  have hcj : c.id = cid := by
    have := List.find?_some hf
    simpa using this
  have hrow : ClientRepository.points_row cid delta c =
      { c with loyalty_points := c.loyalty_points + delta } := by
    unfold ClientRepository.points_row
    rw [if_pos (by simp [hcj, hguard])]
  simp [hrow]

theorem update_points_true (clients : List Client) (cid : ℕ) (delta : ℤ)
    (c : Client) (hf : ClientRepository.get_by_id clients cid = some c)
    (hguard : 0 ≤ c.loyalty_points + delta) :
    (ClientRepository.update_loyalty_points clients cid delta).1 = true := by
  unfold ClientRepository.get_by_id at hf
  have hmem : c ∈ clients := List.mem_of_find?_eq_some hf
  have hcj : c.id = cid := by
    have := List.find?_some hf
    simpa using this
  unfold ClientRepository.update_loyalty_points
  rw [List.any_eq_true]
  exact ⟨c, hmem, by simp [hcj, hguard]⟩

@[simp]
theorem record_movement_medicaments (st : PharmacyState) (mid : ℕ) (t : String)
    (q : ℤ) (r : String) (rid : Option ℕ) :
    (StockService.record_movement st mid t q r rid).medicaments = st.medicaments := rfl

@[simp]
theorem record_movement_clients (st : PharmacyState) (mid : ℕ) (t : String)
    (q : ℤ) (r : String) (rid : Option ℕ) :
    (StockService.record_movement st mid t q r rid).clients = st.clients := rfl

@[simp]
theorem record_movement_tiers (st : PharmacyState) (mid : ℕ) (t : String)
    (q : ℤ) (r : String) (rid : Option ℕ) :
    (StockService.record_movement st mid t q r rid).tiers = st.tiers := rfl

@[simp]
theorem record_movement_sales (st : PharmacyState) (mid : ℕ) (t : String)
    (q : ℤ) (r : String) (rid : Option ℕ) :
    (StockService.record_movement st mid t q r rid).sales = st.sales := rfl

@[simp]
theorem record_movement_cart (st : PharmacyState) (mid : ℕ) (t : String)
    (q : ℤ) (r : String) (rid : Option ℕ) :
    (StockService.record_movement st mid t q r rid).cart = st.cart := rfl

@[simp]
theorem record_movement_user (st : PharmacyState) (mid : ℕ) (t : String)
    (q : ℤ) (r : String) (rid : Option ℕ) :
    (StockService.record_movement st mid t q r rid).current_user = st.current_user := rfl

@[simp]
theorem record_movement_ppu (st : PharmacyState) (mid : ℕ) (t : String)
    (q : ℤ) (r : String) (rid : Option ℕ) :
    (StockService.record_movement st mid t q r rid).points_per_unit = st.points_per_unit := rfl

/-- remove_stock touches only the medicament table and the ledger. -/
theorem remove_stock_frame (st : PharmacyState) (mid : ℕ) (qty : ℤ) (reason : String)
    (rid : Option ℕ) :
    (StockService.remove_stock st mid qty reason rid).2.clients = st.clients ∧
    (StockService.remove_stock st mid qty reason rid).2.tiers = st.tiers ∧
    (StockService.remove_stock st mid qty reason rid).2.sales = st.sales ∧
    (StockService.remove_stock st mid qty reason rid).2.cart = st.cart ∧
    (StockService.remove_stock st mid qty reason rid).2.current_user = st.current_user ∧
    (StockService.remove_stock st mid qty reason rid).2.points_per_unit = st.points_per_unit := by
  refine ⟨?_, ?_, ?_, ?_, ?_, ?_⟩ <;>
    (unfold StockService.remove_stock; dsimp only; repeat' split) <;> simp

/-- add_stock touches only the medicament table and the ledger. -/
theorem add_stock_frame (st : PharmacyState) (mid : ℕ) (qty : ℤ) (reason : String) :
    (StockService.add_stock st mid qty reason).2.clients = st.clients ∧
    (StockService.add_stock st mid qty reason).2.tiers = st.tiers ∧
    (StockService.add_stock st mid qty reason).2.sales = st.sales ∧
    (StockService.add_stock st mid qty reason).2.cart = st.cart ∧
    (StockService.add_stock st mid qty reason).2.current_user = st.current_user ∧
    (StockService.add_stock st mid qty reason).2.points_per_unit = st.points_per_unit := by
  refine ⟨?_, ?_, ?_, ?_, ?_, ?_⟩ <;>
    (unfold StockService.add_stock; dsimp only; repeat' split) <;> simp

/-- remove_stock leaves every other medicine row unchanged. -/
theorem remove_stock_get_ne (st : PharmacyState) (mid : ℕ) (qty : ℤ) (reason : String)
    (rid : Option ℕ) (j : ℕ) (h : j ≠ mid) :
    MedicamentRepository.get_by_id
        (StockService.remove_stock st mid qty reason rid).2.medicaments j =
      MedicamentRepository.get_by_id st.medicaments j := by
  unfold StockService.remove_stock
  dsimp only
  repeat' split
  all_goals simp [get_by_id_update_stock_ne _ _ _ _ h]

/-- add_stock leaves every other medicine row unchanged. -/
theorem add_stock_get_ne (st : PharmacyState) (mid : ℕ) (qty : ℤ) (reason : String)
    (j : ℕ) (h : j ≠ mid) :
    MedicamentRepository.get_by_id
        (StockService.add_stock st mid qty reason).2.medicaments j =
      MedicamentRepository.get_by_id st.medicaments j := by
  unfold StockService.add_stock
  dsimp only
  repeat' split
  all_goals simp [get_by_id_update_stock_ne _ _ _ _ h]

/-- A successful remove_stock decrements exactly the target row. -/
theorem remove_stock_get_eq (st : PharmacyState) (mid : ℕ) (qty : ℤ) (reason : String)
    (rid : Option ℕ) (m : Medicament) (hq : 0 < qty)
    (hf : MedicamentRepository.get_by_id st.medicaments mid = some m)
    (hs : qty ≤ m.quantity_in_stock) :
    MedicamentRepository.get_by_id
        (StockService.remove_stock st mid qty reason rid).2.medicaments mid =
      some { m with quantity_in_stock := m.quantity_in_stock - qty } := by
  have hg : 0 ≤ m.quantity_in_stock + (-qty) := by omega
  have ht := update_stock_true st.medicaments mid (-qty) m hf hg
  have he := get_by_id_update_stock_eq st.medicaments mid (-qty) m hf hg
  unfold StockService.remove_stock
  rw [if_neg (by omega : ¬qty ≤ 0), hf]
  dsimp only
  rw [if_neg (not_lt.mpr hs)]
  simp only [ht, if_true, record_movement_medicaments]
  rw [he]
  simp [sub_eq_add_neg]

/-- A successful add_stock increments exactly the target row. -/
theorem add_stock_get_eq (st : PharmacyState) (mid : ℕ) (qty : ℤ) (reason : String)
    (m : Medicament) (hq : 0 < qty)
    (hf : MedicamentRepository.get_by_id st.medicaments mid = some m)
    (hg : 0 ≤ m.quantity_in_stock + qty) :
    MedicamentRepository.get_by_id
        (StockService.add_stock st mid qty reason).2.medicaments mid =
      some { m with quantity_in_stock := m.quantity_in_stock + qty } := by
  have ht := update_stock_true st.medicaments mid qty m hf hg
  have he := get_by_id_update_stock_eq st.medicaments mid qty m hf hg
  unfold StockService.add_stock
  rw [if_neg (by omega : ¬qty ≤ 0), hf]
  dsimp only
  simp only [ht, if_true, record_movement_medicaments]
  exact he

theorem pointsOf_update_total_spent (clients : List Client) (cid : ℕ) (amount : ℚ)
    (j : ℕ) :
    pointsOf (ClientRepository.update_total_spent clients cid amount).2 j =
      pointsOf clients j := by
  unfold pointsOf ClientRepository.get_by_id ClientRepository.update_total_spent
  rw [find?_map_keyfix Client.id _ (spent_row_id cid amount)]
  cases hf : clients.find? (fun c => c.id == j) with
  | none => rfl
  | some c =>
    have hpts : (ClientRepository.spent_row cid amount c).loyalty_points =
        c.loyalty_points := by
      unfold ClientRepository.spent_row
      split <;> rfl
    simp [hpts]

/- ------------------------------------------------------------------
   Lemmas about the commit and cancellation stock loops
   ------------------------------------------------------------------ -/

theorem removeLoop_cons (st : PharmacyState) (it : CartItem) (its : List CartItem)
    (rid : Option ℕ) :
    SaleService.removeLoop st (it :: its) rid =
      SaleService.removeLoop
        (StockService.remove_stock st it.medicament.id it.quantity ("Vente") rid).2
        its rid := rfl

theorem addLoop_cons (st : PharmacyState) (l : SaleLine) (ls : List SaleLine)
    (reason : String) :
    SaleService.addLoop st (l :: ls) reason =
      SaleService.addLoop
        (StockService.add_stock st l.medicament_id l.quantity reason).2 ls reason := rfl

theorem removeLoop_frame (items : List CartItem) (st : PharmacyState) (rid : Option ℕ) :
    (SaleService.removeLoop st items rid).clients = st.clients ∧
    (SaleService.removeLoop st items rid).tiers = st.tiers ∧
    (SaleService.removeLoop st items rid).sales = st.sales ∧
    (SaleService.removeLoop st items rid).cart = st.cart ∧
    (SaleService.removeLoop st items rid).current_user = st.current_user ∧
    (SaleService.removeLoop st items rid).points_per_unit = st.points_per_unit := by
  induction items generalizing st with
  | nil => exact ⟨rfl, rfl, rfl, rfl, rfl, rfl⟩
  | cons it its ih =>
    rw [removeLoop_cons]
    obtain ⟨a1, a2, a3, a4, a5, a6⟩ :=
      remove_stock_frame st it.medicament.id it.quantity ("Vente") rid
    obtain ⟨b1, b2, b3, b4, b5, b6⟩ :=
      ih (StockService.remove_stock st it.medicament.id it.quantity ("Vente") rid).2
    exact ⟨b1.trans a1, b2.trans a2, b3.trans a3, b4.trans a4, b5.trans a5, b6.trans a6⟩

theorem addLoop_frame (ls : List SaleLine) (st : PharmacyState) (reason : String) :
    (SaleService.addLoop st ls reason).clients = st.clients ∧
    (SaleService.addLoop st ls reason).tiers = st.tiers ∧
    (SaleService.addLoop st ls reason).sales = st.sales ∧
    (SaleService.addLoop st ls reason).cart = st.cart ∧
    (SaleService.addLoop st ls reason).current_user = st.current_user ∧
    (SaleService.addLoop st ls reason).points_per_unit = st.points_per_unit := by
  induction ls generalizing st with
  | nil => exact ⟨rfl, rfl, rfl, rfl, rfl, rfl⟩
  | cons l ls2 ih =>
    rw [addLoop_cons]
    obtain ⟨a1, a2, a3, a4, a5, a6⟩ :=
      add_stock_frame st l.medicament_id l.quantity reason
    obtain ⟨b1, b2, b3, b4, b5, b6⟩ :=
      ih (StockService.add_stock st l.medicament_id l.quantity reason).2
    exact ⟨b1.trans a1, b2.trans a2, b3.trans a3, b4.trans a4, b5.trans a5, b6.trans a6⟩

theorem removeLoop_get_ne (items : List CartItem) (st : PharmacyState) (rid : Option ℕ)
    (j : ℕ) (h : ∀ it ∈ items, it.medicament.id ≠ j) :
    MedicamentRepository.get_by_id (SaleService.removeLoop st items rid).medicaments j =
      MedicamentRepository.get_by_id st.medicaments j := by
  induction items generalizing st with
  | nil => rfl
  | cons it its ih =>
    rw [removeLoop_cons]
    rw [ih _ (fun it2 hm => h it2 (List.mem_cons_of_mem _ hm))]
    exact remove_stock_get_ne st it.medicament.id it.quantity ("Vente") rid j
      (Ne.symm (h it (List.mem_cons_self _ _)))

theorem addLoop_get_ne (ls : List SaleLine) (st : PharmacyState) (reason : String)
    (j : ℕ) (h : ∀ l ∈ ls, l.medicament_id ≠ j) :
    MedicamentRepository.get_by_id (SaleService.addLoop st ls reason).medicaments j =
      MedicamentRepository.get_by_id st.medicaments j := by
  induction ls generalizing st with
  | nil => rfl
  | cons l ls2 ih =>
    rw [addLoop_cons]
    rw [ih _ (fun l2 hm => h l2 (List.mem_cons_of_mem _ hm))]
    exact add_stock_get_ne st l.medicament_id l.quantity reason j
      (Ne.symm (h l (List.mem_cons_self _ _)))

/-- Effect of the commit decrement loop on each row it touches: when the
cart has no duplicate medicine and every line has positive quantity not
exceeding the live stock, each touched row ends exactly decremented. -/
theorem removeLoop_get_eq (items : List CartItem) (st : PharmacyState) (rid : Option ℕ)
    (hnd : (items.map (fun it => it.medicament.id)).Nodup)
    (hok : ∀ it ∈ items, 0 < it.quantity ∧
      ∃ m, MedicamentRepository.get_by_id st.medicaments it.medicament.id = some m ∧
        it.quantity ≤ m.quantity_in_stock) :
    ∀ it ∈ items, ∀ m,
      MedicamentRepository.get_by_id st.medicaments it.medicament.id = some m →
      MedicamentRepository.get_by_id (SaleService.removeLoop st items rid).medicaments
          it.medicament.id =
        some { m with quantity_in_stock := m.quantity_in_stock - it.quantity } := by
  induction items generalizing st with
  | nil =>
    intro it hit
    exact absurd hit (List.not_mem_nil it)
  | cons it0 its ih =>
    have hmap : ((it0 :: its).map (fun it => it.medicament.id)) =
        it0.medicament.id :: its.map (fun it => it.medicament.id) := rfl
    rw [hmap] at hnd
    have hnd0 : it0.medicament.id ∉ its.map (fun it => it.medicament.id) :=
      (List.nodup_cons.mp hnd).1
    have hndits : (its.map (fun it => it.medicament.id)).Nodup :=
      (List.nodup_cons.mp hnd).2
    intro it hit m hm
    rw [removeLoop_cons]
    obtain ⟨hq0, m0, hf0, hs0⟩ := hok it0 (List.mem_cons_self _ _)
    rcases List.mem_cons.mp hit with rfl | hit2
    · have hmm : m = m0 := by
        rw [hm] at hf0
        exact Option.some_inj.mp hf0
      have hstep := remove_stock_get_eq st it.medicament.id it.quantity ("Vente") rid m
        hq0 hm (by rw [hmm]; exact hs0)
      have hrest : ∀ it2 ∈ its, it2.medicament.id ≠ it.medicament.id := by
        intro it2 h2 heq
        exact hnd0 (heq ▸ List.mem_map_of_mem (fun it3 => it3.medicament.id) h2)
      exact (removeLoop_get_ne its _ rid it.medicament.id hrest).trans hstep
    · have hne : it.medicament.id ≠ it0.medicament.id := by
        intro heq
        exact hnd0 (heq ▸ List.mem_map_of_mem (fun it3 => it3.medicament.id) hit2)
      have hm2 : MedicamentRepository.get_by_id
          (StockService.remove_stock st it0.medicament.id it0.quantity ("Vente") rid).2.medicaments
          it.medicament.id = some m := by
        rw [remove_stock_get_ne st _ _ _ _ _ hne]
        exact hm
      refine ih _ hndits ?_ it hit2 m hm2
      intro it2 h2
      obtain ⟨hq2, m2, hf2, hs2⟩ := hok it2 (List.mem_cons_of_mem _ h2)
      have hne2 : it2.medicament.id ≠ it0.medicament.id := by
        intro heq
        exact hnd0 (heq ▸ List.mem_map_of_mem (fun it3 => it3.medicament.id) h2)
      refine ⟨hq2, m2, ?_, hs2⟩
      rw [remove_stock_get_ne st _ _ _ _ _ hne2]
      exact hf2

/-- Effect of the cancellation increment loop on each row it touches. -/
theorem addLoop_get_eq (ls : List SaleLine) (st : PharmacyState) (reason : String)
    (hnd : (ls.map (fun l => l.medicament_id)).Nodup)
    (hok : ∀ l ∈ ls, 0 < l.quantity ∧
      ∃ m, MedicamentRepository.get_by_id st.medicaments l.medicament_id = some m ∧
        0 ≤ m.quantity_in_stock + l.quantity) :
    ∀ l ∈ ls, ∀ m,
      MedicamentRepository.get_by_id st.medicaments l.medicament_id = some m →
      MedicamentRepository.get_by_id (SaleService.addLoop st ls reason).medicaments
          l.medicament_id =
        some { m with quantity_in_stock := m.quantity_in_stock + l.quantity } := by
  induction ls generalizing st with
  | nil =>
    intro l hl
    exact absurd hl (List.not_mem_nil l)
  | cons l0 ls2 ih =>
    have hmap : ((l0 :: ls2).map (fun l => l.medicament_id)) =
        l0.medicament_id :: ls2.map (fun l => l.medicament_id) := rfl
    rw [hmap] at hnd
    have hnd0 : l0.medicament_id ∉ ls2.map (fun l => l.medicament_id) :=
      (List.nodup_cons.mp hnd).1
    have hndls : (ls2.map (fun l => l.medicament_id)).Nodup :=
      (List.nodup_cons.mp hnd).2
    intro l hl m hm
    rw [addLoop_cons]
    obtain ⟨hq0, m0, hf0, hg0⟩ := hok l0 (List.mem_cons_self _ _)
    rcases List.mem_cons.mp hl with rfl | hl2
    · have hmm : m = m0 := by
        rw [hm] at hf0
        exact Option.some_inj.mp hf0
      have hstep := add_stock_get_eq st l.medicament_id l.quantity reason m
        hq0 hm (by rw [hmm]; exact hg0)
      have hrest : ∀ l2 ∈ ls2, l2.medicament_id ≠ l.medicament_id := by
        intro l2 h2 heq
        exact hnd0 (heq ▸ List.mem_map_of_mem (fun l3 => l3.medicament_id) h2)
      exact (addLoop_get_ne ls2 _ reason l.medicament_id hrest).trans hstep
    · have hne : l.medicament_id ≠ l0.medicament_id := by
        intro heq
        exact hnd0 (heq ▸ List.mem_map_of_mem (fun l3 => l3.medicament_id) hl2)
      have hm2 : MedicamentRepository.get_by_id
          (StockService.add_stock st l0.medicament_id l0.quantity reason).2.medicaments
          l.medicament_id = some m := by
        rw [add_stock_get_ne st _ _ _ _ hne]
        exact hm
      refine ih _ hndls ?_ l hl2 m hm2
      intro l2 h2
      obtain ⟨hq2, m2, hf2, hg2⟩ := hok l2 (List.mem_cons_of_mem _ h2)
      have hne2 : l2.medicament_id ≠ l0.medicament_id := by
        intro heq
        exact hnd0 (heq ▸ List.mem_map_of_mem (fun l3 => l3.medicament_id) h2)
      refine ⟨hq2, m2, ?_, hg2⟩
      rw [add_stock_get_ne st _ _ _ _ hne2]
      exact hf2

/- ------------------------------------------------------------------
   Preservation of the stock non-negativity invariant
   ------------------------------------------------------------------ -/

theorem update_stock_nonneg (meds : List Medicament) (mid : ℕ) (delta : ℤ)
    (h : ∀ m ∈ meds, 0 ≤ m.quantity_in_stock) :
    ∀ m ∈ (MedicamentRepository.update_stock meds mid delta).2, 0 ≤ m.quantity_in_stock := by
  intro m hm
  unfold MedicamentRepository.update_stock at hm
  obtain ⟨y, hy, rfl⟩ := List.mem_map.mp hm
  unfold MedicamentRepository.stock_row
  split
  · rename_i hcond
    rw [Bool.and_eq_true] at hcond
    exact of_decide_eq_true hcond.2
  · exact h y hy

theorem update_full_nonneg (meds : List Medicament) (m2 : Medicament)
    (h : ∀ m ∈ meds, 0 ≤ m.quantity_in_stock) (h2 : 0 ≤ m2.quantity_in_stock) :
    ∀ m ∈ (MedicamentRepository.update meds m2).2, 0 ≤ m.quantity_in_stock := by
  intro m hm
  unfold MedicamentRepository.update at hm
  obtain ⟨y, hy, rfl⟩ := List.mem_map.mp hm
  split
  · exact h2
  · exact h y hy

theorem remove_stock_nonneg (st : PharmacyState) (mid : ℕ) (qty : ℤ) (reason : String)
    (rid : Option ℕ) (h : ∀ m ∈ st.medicaments, 0 ≤ m.quantity_in_stock) :
    ∀ m ∈ (StockService.remove_stock st mid qty reason rid).2.medicaments,
      0 ≤ m.quantity_in_stock := by
  unfold StockService.remove_stock
  dsimp only
  repeat' split
  all_goals simp only [record_movement_medicaments]
  all_goals first
    | exact h
    | exact update_stock_nonneg st.medicaments mid _ h

theorem add_stock_nonneg (st : PharmacyState) (mid : ℕ) (qty : ℤ) (reason : String)
    (h : ∀ m ∈ st.medicaments, 0 ≤ m.quantity_in_stock) :
    ∀ m ∈ (StockService.add_stock st mid qty reason).2.medicaments,
      0 ≤ m.quantity_in_stock := by
  unfold StockService.add_stock
  dsimp only
  repeat' split
  all_goals simp only [record_movement_medicaments]
  all_goals first
    | exact h
    | exact update_stock_nonneg st.medicaments mid _ h

theorem adjust_stock_nonneg (st : PharmacyState) (mid : ℕ) (newq : ℤ) (reason : String)
    (h : ∀ m ∈ st.medicaments, 0 ≤ m.quantity_in_stock) :
    ∀ m ∈ (StockService.adjust_stock st mid newq reason).2.medicaments,
      0 ≤ m.quantity_in_stock := by
  unfold StockService.adjust_stock
  dsimp only
  repeat' split
  all_goals simp only [record_movement_medicaments]
  all_goals first
    | exact h
    | exact update_full_nonneg st.medicaments _ h
        (by show (0 : ℤ) ≤ newq; omega)

theorem removeLoop_nonneg (items : List CartItem) (st : PharmacyState) (rid : Option ℕ)
    (h : ∀ m ∈ st.medicaments, 0 ≤ m.quantity_in_stock) :
    ∀ m ∈ (SaleService.removeLoop st items rid).medicaments, 0 ≤ m.quantity_in_stock := by
  induction items generalizing st with
  | nil => exact h
  | cons it its ih =>
    rw [removeLoop_cons]
    exact ih _ (remove_stock_nonneg st it.medicament.id it.quantity ("Vente") rid h)

/- ------------------------------------------------------------------
   Client-credit and point-deduction lemmas
   ------------------------------------------------------------------ -/

theorem creditClient_medicaments (st : PharmacyState) (c : Option Client) (amount : ℚ) :
    (SaleService.creditClient st c amount).medicaments = st.medicaments := by
  cases c <;> rfl

theorem creditClient_sales (st : PharmacyState) (c : Option Client) (amount : ℚ) :
    (SaleService.creditClient st c amount).sales = st.sales := by
  cases c <;> rfl

theorem creditClient_tiers (st : PharmacyState) (c : Option Client) (amount : ℚ) :
    (SaleService.creditClient st c amount).tiers = st.tiers := by
  cases c <;> rfl

theorem creditClient_user (st : PharmacyState) (c : Option Client) (amount : ℚ) :
    (SaleService.creditClient st c amount).current_user = st.current_user := by
  cases c <;> rfl

theorem creditClient_ppu (st : PharmacyState) (c : Option Client) (amount : ℚ) :
    (SaleService.creditClient st c amount).points_per_unit = st.points_per_unit := by
  cases c <;> rfl

/-- Committing with an attached client credits the balance with exactly
calculate_points_earned of the amount. -/
theorem creditClient_points (st : PharmacyState) (c : Client) (c0 : Client) (amount : ℚ)
    (hc : ClientRepository.get_by_id st.clients c.id = some c0)
    (hb : 0 ≤ c0.loyalty_points) :
    pointsOf (SaleService.creditClient st (some c) amount).clients c.id =
      some (c0.loyalty_points +
        LoyaltyService.calculate_points_earned st.points_per_unit amount) := by
  unfold SaleService.creditClient LoyaltyService.add_points_to_client
  dsimp only
  rw [hc]
  dsimp only
  by_cases hp : 0 < LoyaltyService.calculate_points_earned st.points_per_unit amount
  · rw [if_pos hp]
    have ht := update_points_true st.clients c.id
      (LoyaltyService.calculate_points_earned st.points_per_unit amount) c0 hc (by omega)
    rw [ht, if_pos (Eq.refl true)]
    dsimp only
    rw [pointsOf_update_total_spent]
    unfold pointsOf
    rw [get_by_id_update_points_eq st.clients c.id
      (LoyaltyService.calculate_points_earned st.points_per_unit amount) c0 hc (by omega)]
    rfl
  · rw [if_neg hp]
    dsimp only
    rw [pointsOf_update_total_spent]
    unfold pointsOf
    rw [hc]
    have hz : LoyaltyService.calculate_points_earned st.points_per_unit amount = 0 :=
      le_antisymm (not_lt.mp hp) (calculate_points_earned_nonneg _ _)
    rw [hz, add_zero]
    rfl

/-- use_client_points deducts exactly when the balance suffices and
otherwise refuses, leaving the balance unchanged. -/
theorem use_client_points_spec (clients : List Client) (cid : ℕ) (pts : ℤ) (c : Client)
    (hp : 0 < pts) (hf : ClientRepository.get_by_id clients cid = some c) :
    pointsOf (LoyaltyService.use_client_points clients cid pts).2 cid =
      some (if pts ≤ c.loyalty_points then c.loyalty_points - pts
            else c.loyalty_points) := by
  unfold LoyaltyService.use_client_points
  rw [if_neg (by omega : ¬pts ≤ 0), hf]
  dsimp only
  by_cases hlt : c.loyalty_points < pts
  · rw [if_pos hlt, if_neg (by omega : ¬pts ≤ c.loyalty_points)]
    unfold pointsOf
    rw [hf]
    rfl
  · rw [if_neg hlt]
    have hg : 0 ≤ c.loyalty_points + (-pts) := by omega
    have ht := update_points_true clients cid (-pts) c hf hg
    rw [ht, if_pos (Eq.refl true)]
    dsimp only
    unfold pointsOf
    rw [get_by_id_update_points_eq clients cid (-pts) c hf hg,
      if_pos (by omega : pts ≤ c.loyalty_points)]
    show some (c.loyalty_points + -pts) = some (c.loyalty_points - pts)
    rw [sub_eq_add_neg]

/- ------------------------------------------------------------------
   Tier selection and discount bounds
   ------------------------------------------------------------------ -/

theorem tier_pick_aux (f : Option LoyaltyTier → LoyaltyTier → Option LoyaltyTier)
    (hf : ∀ acc t, f acc t = some t ∨ f acc t = acc)
    (l : List LoyaltyTier) (acc : Option LoyaltyTier) (t : LoyaltyTier)
    (h : l.foldl f acc = some t) : acc = some t ∨ t ∈ l := by
  induction l generalizing acc with
  | nil => exact Or.inl h
  | cons x xs ih =>
    rw [List.foldl_cons] at h
    rcases ih (f acc x) h with h2 | h2
    · rcases hf acc x with h3 | h3
      · rw [h3] at h2
        exact Or.inr (by rw [Option.some_inj.mp h2.symm] at *; exact List.mem_cons_self x xs)
      · rw [h3] at h2
        exact Or.inl h2
    · exact Or.inr (List.mem_cons_of_mem x h2)

/-- The tier returned by get_tier_for_points is one of the stored tiers. -/
theorem get_tier_mem (tiers : List LoyaltyTier) (points : ℤ) (t : LoyaltyTier)
    (h : LoyaltyTierRepository.get_tier_for_points tiers points = some t) : t ∈ tiers := by
  unfold LoyaltyTierRepository.get_tier_for_points at h
  have := tier_pick_aux _ ?_ _ none t h
  · rcases this with h2 | h2
    · exact absurd h2 (by simp)
    · exact List.mem_of_mem_filter h2
  · intro acc t2
    cases acc with
    | none => exact Or.inl rfl
    | some b =>
      dsimp only
      split
      · exact Or.inl rfl
      · exact Or.inr rfl

/-- The discount applied for a client is among the configured tier
percentages, hence within the bounds assumed for the tier table. -/
theorem get_client_discount_bounds (tiers : List LoyaltyTier) (c : Client)
    (htb : ∀ t ∈ tiers, 0 ≤ t.discount_percentage ∧ t.discount_percentage ≤ 100) :
    0 ≤ LoyaltyService.get_client_discount tiers c ∧
      LoyaltyService.get_client_discount tiers c ≤ 100 := by
  unfold LoyaltyService.get_client_discount
  cases htier : LoyaltyTierRepository.get_tier_for_points tiers c.loyalty_points with
  | none => exact ⟨le_refl 0, by norm_num⟩
  | some t => exact htb t (get_tier_mem tiers c.loyalty_points t htier)

/- ------------------------------------------------------------------
   Generic list helpers and validate_sale / cancel_sale shape lemmas
   ------------------------------------------------------------------ -/

theorem map_id_of_fix {α : Type} (f : α → α) (l : List α) (h : ∀ x ∈ l, f x = x) :
    l.map f = l := by
  induction l with
  | nil => rfl
  | cons x xs ih =>
    rw [List.map_cons, h x (List.mem_cons_self _ _),
      ih (fun y hy => h y (List.mem_cons_of_mem _ hy))]

theorem mem_key_eq_find {α : Type} (key : α → ℕ) (l : List α) (j : ℕ) (a x : α)
    (hnd : (l.map key).Nodup) (hf : l.find? (fun y => key y == j) = some a)
    (hx : x ∈ l) (hk : key x = j) : x = a := by
  induction l with
  | nil => exact absurd hx (List.not_mem_nil x)
  | cons b bs ih =>
    rw [List.map_cons] at hnd
    have hnd1 : key b ∉ bs.map key := (List.nodup_cons.mp hnd).1
    have hnd2 : (bs.map key).Nodup := (List.nodup_cons.mp hnd).2
    by_cases hb : (key b == j) = true
    · rw [@List.find?_cons_of_pos _ (fun y => key y == j) b bs hb] at hf
      have hba : b = a := Option.some_inj.mp hf
      rcases List.mem_cons.mp hx with rfl | hx2
      · exact hba
      · exfalso
        have hbj : key b = j := by simpa using hb
        apply hnd1
        rw [hbj, ← hk]
        exact List.mem_map_of_mem key hx2
    · rw [@List.find?_cons_of_neg _ (fun y => key y == j) b bs hb] at hf
      rcases List.mem_cons.mp hx with rfl | hx2
      · exact absurd (by simpa using hk) hb
      · exact ih hnd2 hf hx2

/-- The live stock re-check succeeds when the medicine exists with enough
stock. -/
theorem check_stock_true (st : PharmacyState) (mid : ℕ) (qty : ℤ) (m : Medicament)
    (hf : MedicamentRepository.get_by_id st.medicaments mid = some m)
    (hq : qty ≤ m.quantity_in_stock) :
    (StockService.check_stock_availability st mid qty).1 = true := by
  unfold StockService.check_stock_availability
  rw [hf]
  simpa using hq

theorem sale_repo_cancel_true (sales : List Sale) (sid : ℕ) (sale : Sale)
    (hf : SaleRepository.get_by_id sales sid = some sale) :
    (SaleRepository.cancel sales sid).1 = true := by
  unfold SaleRepository.get_by_id at hf
  unfold SaleRepository.cancel
  rw [List.any_eq_true]
  exact ⟨sale, List.mem_of_find?_eq_some hf,
    @List.find?_some _ (fun s => s.id == sid) sale _ hf⟩

theorem commitPhase_success (st : PharmacyState)
    (interf : List Medicament → List Medicament) (uid : ℕ) :
    (SaleService.commitPhase st interf uid).1.1 = true := rfl

theorem commitPhase_sale (st : PharmacyState)
    (interf : List Medicament → List Medicament) (uid : ℕ) :
    (SaleService.commitPhase st interf uid).1.2.2 =
      some (SaleRepository.create st.sales
        (SaleService.mkPendingSale st uid (SaleService.calculate_totals st))).1 := rfl

theorem commitPhase_meds (st : PharmacyState)
    (interf : List Medicament → List Medicament) (uid : ℕ) :
    (SaleService.commitPhase st interf uid).2.medicaments =
      (SaleService.removeLoop
        { st with
            sales := (SaleRepository.create st.sales
              (SaleService.mkPendingSale st uid (SaleService.calculate_totals st))).2,
            medicaments := interf st.medicaments }
        st.cart.items
        (some (SaleRepository.create st.sales
          (SaleService.mkPendingSale st uid (SaleService.calculate_totals st))).1.id)).medicaments := by
  unfold SaleService.commitPhase
  dsimp only
  rw [creditClient_medicaments]

theorem commitPhase_clients (st : PharmacyState)
    (interf : List Medicament → List Medicament) (uid : ℕ) :
    (SaleService.commitPhase st interf uid).2.clients =
      (SaleService.creditClient
        (SaleService.removeLoop
          { st with
              sales := (SaleRepository.create st.sales
                (SaleService.mkPendingSale st uid (SaleService.calculate_totals st))).2,
              medicaments := interf st.medicaments }
          st.cart.items
          (some (SaleRepository.create st.sales
            (SaleService.mkPendingSale st uid (SaleService.calculate_totals st))).1.id))
        st.cart.client (SaleService.calculate_totals st).total).clients := rfl

theorem commitPhase_sales (st : PharmacyState)
    (interf : List Medicament → List Medicament) (uid : ℕ) :
    (SaleService.commitPhase st interf uid).2.sales =
      (SaleRepository.create st.sales
        (SaleService.mkPendingSale st uid (SaleService.calculate_totals st))).2 := by
  unfold SaleService.commitPhase
  dsimp only
  rw [creditClient_sales]
  exact (removeLoop_frame _ _ _).2.2.1

/-- When the three validations pass, validate_sale runs the commit phase. -/
theorem validate_sale_mut_run (st : PharmacyState)
    (interf : List Medicament → List Medicament) (uid : ℕ)
    (hne : st.cart.items.isEmpty = false)
    (huser : st.current_user = some uid)
    (hchk : ∀ it ∈ st.cart.items,
      (StockService.check_stock_availability st it.medicament.id it.quantity).1 = true) :
    SaleService.validate_sale_mut st interf = SaleService.commitPhase st interf uid := by
  unfold SaleService.validate_sale_mut
  rw [if_neg (by rw [hne]; exact Bool.false_ne_true), huser]
  dsimp only
  have hfind : st.cart.items.find? (fun it =>
      !(StockService.check_stock_availability st it.medicament.id it.quantity).1) = none := by
    rw [List.find?_eq_none]
    intro it hit
    simp [hchk it hit]
  rw [hfind]

/- ------------------------------------------------------------------
   Concrete fixtures used by witnesses and counterexamples
   ------------------------------------------------------------------ -/

def medPara : Medicament :=
  { id := 1, name := "PARA500", selling_price := 1000, quantity_in_stock := 20,
    is_active := true }

def stEmptyCart : PharmacyState :=
  { medicaments := [medPara], clients := [], tiers := [], movements := [],
    sales := [], cart := { items := [], client := none }, current_user := some 1,
    points_per_unit := 10 }

def saleCancelledFx : Sale :=
  { id := 1, sale_number := "VNT-1", user_id := 1, client_id := none,
    subtotal := 1000, discount_percentage := 0, discount_amount := 0, total := 1000,
    loyalty_points_earned := 0, loyalty_points_used := 0, status := "cancelled",
    lines := [{ sale_id := 1, medicament_id := 1, quantity := 1, unit_price := 1000,
                line_total := 1000 }] }

def stCancelledFx : PharmacyState :=
  { medicaments := [medPara], clients := [], tiers := [], movements := [],
    sales := [saleCancelledFx], cart := { items := [], client := none },
    current_user := some 1, points_per_unit := 10 }

def itemPara5 : CartItem :=
  { medicament := medPara, quantity := 5, unit_price := 1000 }

def stCartPara : PharmacyState :=
  { medicaments := [medPara], clients := [], tiers := [], movements := [],
    sales := [],
    cart := { items := [itemPara5], client := none },
    current_user := some 1, points_per_unit := 10 }

/- ------------------------------------------------------------------
   Claim theorems
   ------------------------------------------------------------------ -/

/-- Claim C2: a medicine's quantity-in-stock is never negative.  The
catalog store's quantity-adjust operation (update_stock) refuses — it
returns failure and leaves the table untouched, it does not clamp — any
delta whose application would make the resulting quantity negative; and
the stock-removing operations of the core (remove_stock, adjust_stock,
and the commit path validate_sale) preserve non-negativity of every
stored quantity. -/
theorem C2_stock_never_negative :
    (∀ (meds : List Medicament) (mid : ℕ) (delta : ℤ) (m : Medicament),
      (meds.map Medicament.id).Nodup →
      MedicamentRepository.get_by_id meds mid = some m →
      m.quantity_in_stock + delta < 0 →
      MedicamentRepository.update_stock meds mid delta = (false, meds)) ∧
    (∀ (st : PharmacyState) (mid : ℕ) (qty : ℤ) (reason : String) (rid : Option ℕ),
      (∀ m ∈ st.medicaments, 0 ≤ m.quantity_in_stock) →
      ∀ m ∈ (StockService.remove_stock st mid qty reason rid).2.medicaments,
        0 ≤ m.quantity_in_stock) ∧
    (∀ (st : PharmacyState) (mid : ℕ) (newq : ℤ) (reason : String),
      (∀ m ∈ st.medicaments, 0 ≤ m.quantity_in_stock) →
      ∀ m ∈ (StockService.adjust_stock st mid newq reason).2.medicaments,
        0 ≤ m.quantity_in_stock) ∧
    (∀ st : PharmacyState,
      (∀ m ∈ st.medicaments, 0 ≤ m.quantity_in_stock) →
      ∀ m ∈ (SaleService.validate_sale st).2.medicaments, 0 ≤ m.quantity_in_stock) := by
  refine ⟨?_, remove_stock_nonneg, adjust_stock_nonneg, ?_⟩
  · intro meds mid delta m hnd hf hneg
    have hmid : m.id = mid := by
      unfold MedicamentRepository.get_by_id at hf
      simpa using @List.find?_some _ (fun y => y.id == mid) m _ hf
    unfold MedicamentRepository.get_by_id at hf
    have hfix : ∀ x ∈ meds, MedicamentRepository.stock_row mid delta x = x := by
      intro x hx
      unfold MedicamentRepository.stock_row
      by_cases hxid : x.id = mid
      · have hxm : x = m := mem_key_eq_find Medicament.id meds mid m x hnd hf hx hxid
        subst hxm
        rw [if_neg]
        simp only [Bool.and_eq_true, decide_eq_true_eq, not_and]
        intro _
        omega
      · rw [if_neg (by simp [hxid])]
    have hpred : ∀ x ∈ meds,
        (x.id == mid && decide (0 ≤ x.quantity_in_stock + delta)) = false := by
      intro x hx
      by_cases hxid : x.id = mid
      · have hxm : x = m := mem_key_eq_find Medicament.id meds mid m x hnd hf hx hxid
        subst hxm
        simp only [Bool.and_eq_false_iff, decide_eq_false_iff_not]
        right
        omega
      · simp [hxid]
    unfold MedicamentRepository.update_stock
    rw [Prod.mk.injEq]
    constructor
    · rw [List.any_eq_false]
      intro x hx
      rw [hpred x hx]
      exact Bool.false_ne_true
    · exact map_id_of_fix _ meds hfix
  · intro st hinv
    unfold SaleService.validate_sale SaleService.validate_sale_mut
    split
    · exact hinv
    · split
      · exact hinv
      · split
        · exact hinv
        · rename_i uid _ _
          intro m hm
          rw [commitPhase_meds] at hm
          refine removeLoop_nonneg st.cart.items _ _ ?_ m hm
          exact hinv

/-- Witness for C2 at a concrete table: a decrement of 25 on stock 20 is
refused with the table unchanged, and remove_stock keeps stock
non-negative. -/
theorem C2_stock_never_negative_witness :
    MedicamentRepository.update_stock [medPara] 1 (-25) = (false, [medPara]) ∧
    (∀ m ∈ (StockService.remove_stock stEmptyCart 1 25 ("test") none).2.medicaments,
      0 ≤ m.quantity_in_stock) := by
  constructor
  · exact C2_stock_never_negative.1 [medPara] 1 (-25) medPara (by decide) rfl (by decide)
  · exact C2_stock_never_negative.2.1 stEmptyCart 1 25 ("test") none (by decide)

/-- Claim C6: validate_sale performs all validations (empty cart,
unauthenticated user, per-line live-stock re-check) before any mutation:
each of these failures returns the untouched state — no Sale record, no
stock change, no ledger entry, no customer update, cart unchanged. -/
theorem C6_validations_before_mutation (st : PharmacyState) :
    (st.cart.items.isEmpty = true →
      SaleService.validate_sale st = ((false, "Le panier est vide", none), st)) ∧
    (st.cart.items.isEmpty = false → st.current_user = none →
      SaleService.validate_sale st = ((false, "Utilisateur non connecté", none), st)) ∧
    (∀ (uid : ℕ) (it : CartItem), st.cart.items.isEmpty = false →
      st.current_user = some uid →
      st.cart.items.find? (fun it2 =>
        !(StockService.check_stock_availability st it2.medicament.id it2.quantity).1) =
          some it →
      SaleService.validate_sale st =
        ((false, "Stock insuffisant pour " ++ it.medicament.name, none), st)) := by
  refine ⟨?_, ?_, ?_⟩
  · intro hemp
    unfold SaleService.validate_sale SaleService.validate_sale_mut
    rw [if_pos hemp]
  · intro hne huser
    unfold SaleService.validate_sale SaleService.validate_sale_mut
    rw [if_neg (by rw [hne]; exact Bool.false_ne_true), huser]
  · intro uid it hne huser hfind
    unfold SaleService.validate_sale SaleService.validate_sale_mut
    rw [if_neg (by rw [hne]; exact Bool.false_ne_true), huser]
    dsimp only
    rw [hfind]

/-- Witness for C6: an empty cart fails with no state change. -/
theorem C6_validations_before_mutation_witness :
    SaleService.validate_sale stEmptyCart =
      ((false, "Le panier est vide", none), stEmptyCart) :=
  (C6_validations_before_mutation stEmptyCart).1 rfl

/-- Claim C7: cancelling an already-cancelled sale is a no-op: it reports
the already-cancelled condition as a failure and returns the state
untouched (no status change, no stock increment, no ledger entry, no
point deduction). -/
theorem C7_cancel_already_cancelled (st : PharmacyState) (sid : ℕ) (sale : Sale)
    (hf : SaleRepository.get_by_id st.sales sid = some sale)
    (hst : sale.status = "cancelled") :
    SaleService.cancel_sale st sid = ((false, "Cette vente est déjà annulée"), st) := by
  unfold SaleService.cancel_sale
  rw [hf]
  dsimp only
  rw [if_pos (by simp [hst])]

/-- Witness for C7 on a concrete cancelled sale. -/
theorem C7_cancel_already_cancelled_witness :
    SaleService.cancel_sale stCancelledFx 1 =
      ((false, "Cette vente est déjà annulée"), stCancelledFx) :=
  C7_cancel_already_cancelled stCancelledFx 1 saleCancelledFx rfl rfl

/-- Claim C8: for an active medicine with stock S and existing cart
quantity c, add_to_cart with positive quantity q succeeds exactly when
c + q ≤ S; when c + q > S it fails with the insufficient-stock message
reporting the remaining addable amount S − c and leaves the state
unchanged. -/
theorem C8_add_to_cart_boundary (st : PharmacyState) (mid : ℕ) (q : ℤ) (m : Medicament)
    (hq : 0 < q)
    (hm : MedicamentRepository.get_by_id st.medicaments mid = some m)
    (hact : m.is_active = true)
    (hc : SaleService.cartQtyOf st.cart.items mid ≤ m.quantity_in_stock) :
    ((SaleService.add_to_cart st mid q).1.1 = true ↔
      SaleService.cartQtyOf st.cart.items mid + q ≤ m.quantity_in_stock) ∧
    (m.quantity_in_stock < SaleService.cartQtyOf st.cart.items mid + q →
      SaleService.add_to_cart st mid q =
        ((false, "Stock insuffisant. Disponible: " ++
            toString (m.quantity_in_stock - SaleService.cartQtyOf st.cart.items mid)),
         st)) := by
  constructor
  · unfold SaleService.add_to_cart
    rw [if_neg (by omega : ¬q ≤ 0), hm]
    dsimp only
    rw [if_neg (by rw [hact]; simp)]
    by_cases hle : SaleService.cartQtyOf st.cart.items mid + q ≤ m.quantity_in_stock
    · rw [if_neg (by omega)]
      simp [hle]
    · rw [if_pos (by omega)]
      simp [hle]
  · intro hgt
    unfold SaleService.add_to_cart
    rw [if_neg (by omega : ¬q ≤ 0), hm]
    dsimp only
    rw [if_neg (by rw [hact]; simp), if_pos (by omega)]
    have hmax : max 0 (m.quantity_in_stock - SaleService.cartQtyOf st.cart.items mid) =
        m.quantity_in_stock - SaleService.cartQtyOf st.cart.items mid :=
      max_eq_right (by omega)
    rw [hmax]

/-- Witness for C8: stock 20, cart already holds 5; adding 16 fails and
reports 15 as the remaining addable amount. -/
theorem C8_add_to_cart_boundary_witness :
    ((SaleService.add_to_cart stCartPara 1 16).1.1 = true ↔
      SaleService.cartQtyOf stCartPara.cart.items 1 + 16 ≤ medPara.quantity_in_stock) ∧
    (medPara.quantity_in_stock < SaleService.cartQtyOf stCartPara.cart.items 1 + 16 →
      SaleService.add_to_cart stCartPara 1 16 =
        ((false, "Stock insuffisant. Disponible: " ++
            toString (medPara.quantity_in_stock -
              SaleService.cartQtyOf stCartPara.cart.items 1)),
         stCartPara)) :=
  C8_add_to_cart_boundary stCartPara 1 16 medPara (by norm_num) rfl rfl (by decide)

/-- apply_discount returns a 2-decimal amount when fed one. -/
theorem apply_discount_isCents (tiers : List LoyaltyTier) (amount : ℚ)
    (cl : Option Client) (h : IsCents amount) :
    IsCents (LoyaltyService.apply_discount tiers amount cl).1 := by
  unfold LoyaltyService.apply_discount
  cases cl with
  | none => exact h
  | some c =>
    dsimp only
    split
    · exact h
    · split
      · exact h
      · exact roundHalfEven2_isCents _

def clientZeroFx : Client :=
  { id := 1, loyalty_points := 0, total_spent := 0, is_active := true }

def stCartParaClient : PharmacyState :=
  { medicaments := [medPara], clients := [clientZeroFx], tiers := [], movements := [],
    sales := [],
    cart := { items := [itemPara5], client := some clientZeroFx },
    current_user := some 1, points_per_unit := 10 }

theorem roundHalfUp2_intCast (n : ℤ) : roundHalfUp2 (n : ℚ) = (n : ℚ) := by
  have h : ((n : ℚ)) = ((n * 100 : ℤ) : ℚ)/100 := by push_cast; ring
  rw [h, roundHalfUp2_cents_fix]

/-- calculate_totals with no attached client. -/
theorem calculate_totals_none (st : PharmacyState) (h : st.cart.client = none) :
    SaleService.calculate_totals st =
      { subtotal := st.cart.subtotal, discount_percentage := 0, discount_amount := 0,
        total := roundHalfUp2 st.cart.subtotal, points_earned := 0,
        items_count := st.cart.items_count } := by
  unfold SaleService.calculate_totals
  rw [h]

/-- calculate_totals with an attached client. -/
theorem calculate_totals_some (st : PharmacyState) (c : Client)
    (h : st.cart.client = some c) :
    SaleService.calculate_totals st =
      { subtotal := st.cart.subtotal,
        discount_percentage :=
          (LoyaltyService.apply_discount st.tiers st.cart.subtotal (some c)).2.1,
        discount_amount :=
          (LoyaltyService.apply_discount st.tiers st.cart.subtotal (some c)).2.2,
        total := roundHalfUp2
          (LoyaltyService.apply_discount st.tiers st.cart.subtotal (some c)).1,
        points_earned := LoyaltyService.calculate_points_earned st.points_per_unit
          (LoyaltyService.apply_discount st.tiers st.cart.subtotal (some c)).1,
        items_count := st.cart.items_count } := by
  unfold SaleService.calculate_totals
  rw [h]

theorem stCartPara_subtotal : stCartPara.cart.subtotal = 5000 := by
  show roundHalfUp2 (([itemPara5].map CartItem.line_total).sum) = 5000
  rw [List.map_singleton, List.sum_singleton]
  unfold CartItem.line_total itemPara5
  dsimp only
  have h1 : (((5 : ℤ) : ℚ)) * (1000 : ℚ) = ((5000 : ℤ) : ℚ) := by norm_num
  rw [h1, roundHalfUp2_intCast, roundHalfUp2_intCast]
  norm_num

/-- Claim C9 as stated is false on the code: with no attached customer,
calculate_totals reports 0 projected points even though the loyalty
engine formula floor(total / points-per-unit) is positive.  Concretely:
cart total 5000, points-per-unit 10, claim demands 500, code returns 0. -/
theorem C9_counterexample :
    (SaleService.calculate_totals stCartPara).points_earned = 0 ∧
    (SaleService.calculate_totals stCartPara).total = 5000 ∧
    LoyaltyService.calculate_points_earned stCartPara.points_per_unit
      (SaleService.calculate_totals stCartPara).total = 500 := by
  have htot : (SaleService.calculate_totals stCartPara).total = 5000 := by
    rw [calculate_totals_none stCartPara rfl]
    show roundHalfUp2 stCartPara.cart.subtotal = 5000
    rw [stCartPara_subtotal]
    have h1 : (5000 : ℚ) = ((5000 : ℤ) : ℚ) := by norm_num
    rw [h1, roundHalfUp2_intCast]
  refine ⟨by rw [calculate_totals_none stCartPara rfl], htot, ?_⟩
  rw [htot]
  unfold LoyaltyService.calculate_points_earned
  rw [if_neg (by
    push_neg
    exact ⟨by norm_num, by show (0 : ℚ) < 10; norm_num⟩), ratFloor_eq_floor]
  show Int.floor ((5000 : ℚ) / 10) = 500
  have h2 : (5000 : ℚ) / 10 = ((500 : ℤ) : ℚ) := by norm_num
  rw [h2, Int.floor_intCast]

/-- Claim C9 amended: calculate_totals returns projected points computed
by the loyalty engine from the final (post-discount) total only when a
customer is attached — floor(total / points-per-unit), and 0 when the
total ≤ 0 or the configured constant ≤ 0 — while with no customer
attached the projected points are always 0 regardless of the total. -/
theorem C9_points_projection (st : PharmacyState) :
    (st.cart.client = none → (SaleService.calculate_totals st).points_earned = 0) ∧
    (∀ c, st.cart.client = some c →
      (SaleService.calculate_totals st).points_earned =
        LoyaltyService.calculate_points_earned st.points_per_unit
          (SaleService.calculate_totals st).total ∧
      (((SaleService.calculate_totals st).total ≤ 0 ∨ st.points_per_unit ≤ 0) →
        (SaleService.calculate_totals st).points_earned = 0) ∧
      (0 < (SaleService.calculate_totals st).total → 0 < st.points_per_unit →
        (SaleService.calculate_totals st).points_earned =
          Int.floor ((SaleService.calculate_totals st).total / st.points_per_unit))) := by
  constructor
  · intro hcl
    unfold SaleService.calculate_totals
    rw [hcl]
  · intro c hcl
    have hfinal : roundHalfUp2
        (LoyaltyService.apply_discount st.tiers st.cart.subtotal (some c)).1 =
        (LoyaltyService.apply_discount st.tiers st.cart.subtotal (some c)).1 :=
      roundHalfUp2_fix _ (apply_discount_isCents _ _ _ (roundHalfUp2_isCents _))
    have htot : (SaleService.calculate_totals st).total =
        (LoyaltyService.apply_discount st.tiers st.cart.subtotal (some c)).1 := by
      unfold SaleService.calculate_totals
      rw [hcl]
      exact hfinal
    have hpts : (SaleService.calculate_totals st).points_earned =
        LoyaltyService.calculate_points_earned st.points_per_unit
          (LoyaltyService.apply_discount st.tiers st.cart.subtotal (some c)).1 := by
      unfold SaleService.calculate_totals
      rw [hcl]
    refine ⟨by rw [hpts, htot], ?_, ?_⟩
    · intro hz
      rw [hpts]
      unfold LoyaltyService.calculate_points_earned
      rw [if_pos]
      rw [htot] at hz
      exact hz
    · intro hpos hppu
      rw [hpts, htot]
      rw [htot] at hpos
      unfold LoyaltyService.calculate_points_earned
      rw [if_neg (by push_neg; exact ⟨hpos, hppu⟩), ratFloor_eq_floor]

/-- Witness for C9 amended: no customer gives 0 points on a 5000 total;
a zero-point customer gives floor(5000/10) = 500. -/
theorem C9_points_projection_witness :
    (SaleService.calculate_totals stCartPara).points_earned = 0 ∧
    (SaleService.calculate_totals stCartParaClient).points_earned =
      Int.floor ((SaleService.calculate_totals stCartParaClient).total /
        stCartParaClient.points_per_unit) :=
  ⟨(C9_points_projection stCartPara).1 rfl,
   ((C9_points_projection stCartParaClient).2 clientZeroFx rfl).2.2
     (by with_unfolding_all decide) (by show (0 : ℚ) < 10; norm_num)⟩

def medOneLeft : Medicament :=
  { id := 1, name := "PARA500", selling_price := 1000, quantity_in_stock := 1,
    is_active := true }

def stOneLeft : PharmacyState :=
  { medicaments := [medOneLeft], clients := [], tiers := [], movements := [],
    sales := [],
    cart := { items := [{ medicament := medOneLeft, quantity := 1, unit_price := 1000 }],
              client := none },
    current_user := some 1, points_per_unit := 10 }

/-- A rival sale depleting medicine 1 by one unit in the window between
the Sale persist and the decrement loop (the design's one concurrency
hazard, modelled as the interference function of commit step 5). -/
def c5Depletion (meds : List Medicament) : List Medicament :=
  (MedicamentRepository.update_stock meds 1 (-1)).2

/-- Claim C5 as stated is false on the code: when the step-5 decrement
loses the race (stock was depleted to 0 after the re-check), validate_sale
still reports full success — the remove_stock failure result is discarded,
no exit movement is recorded (movements stays empty), stock stays at 0,
yet the returned flag is true with the success message. -/
theorem C5_counterexample :
    (SaleService.validate_sale_mut stOneLeft c5Depletion).1.1 = true ∧
    (SaleService.validate_sale_mut stOneLeft c5Depletion).1.2.1 =
      "Vente VNT-1 enregistrée" ∧
    stockOf (SaleService.validate_sale_mut stOneLeft c5Depletion).2.medicaments 1 =
      some 0 ∧
    (SaleService.validate_sale_mut stOneLeft c5Depletion).2.movements = [] := by
  refine ⟨by decide, by decide, by decide, by decide⟩

/-- Claim C5 amended: validate_sale does NOT surface a step-5 per-line
decrement failure.  Once the pre-commit validations pass, the returned
success flag is true for every possible interference with the stock
table in the persist-to-decrement window — the per-line remove_stock
results are discarded, so an insufficient-stock failure during step 5 is
silently swallowed rather than reported. -/
theorem C5_commit_success_ignores_decrement (st : PharmacyState)
    (interf : List Medicament → List Medicament) (uid : ℕ)
    (hne : st.cart.items.isEmpty = false)
    (huser : st.current_user = some uid)
    (hchk : ∀ it ∈ st.cart.items,
      (StockService.check_stock_availability st it.medicament.id it.quantity).1 = true) :
    (SaleService.validate_sale_mut st interf).1.1 = true := by
  rw [validate_sale_mut_run st interf uid hne huser hchk]
  exact commitPhase_success st interf uid

/-- Witness for C5 amended at the depleted-stock run. -/
theorem C5_commit_success_ignores_decrement_witness :
    (SaleService.validate_sale_mut stOneLeft c5Depletion).1.1 = true :=
  C5_commit_success_ignores_decrement stOneLeft c5Depletion 1 rfl rfl
    (by with_unfolding_all decide)

theorem roundHalfEven2_zero : roundHalfEven2 0 = 0 := by
  have h := roundHalfEven2_cents_fix 0
  simpa using h

/-- A well-formed cart (positive quantities, non-negative prices) has a
non-negative subtotal. -/
theorem cart_subtotal_nonneg (c : Cart)
    (h : ∀ it ∈ c.items, 0 < it.quantity ∧ 0 ≤ it.unit_price) : 0 ≤ c.subtotal := by
  unfold Cart.subtotal
  apply roundHalfUp2_nonneg
  apply List.sum_nonneg
  intro x hx
  obtain ⟨it, hit, rfl⟩ := List.mem_map.mp hx
  unfold CartItem.line_total
  apply roundHalfUp2_nonneg
  obtain ⟨h1, h2⟩ := h it hit
  have hq : (0 : ℚ) ≤ (it.quantity : ℚ) := by exact_mod_cast le_of_lt h1
  exact mul_nonneg hq h2

/-- A validate_sale run that reports success went through the commit
phase under some session user. -/
theorem validate_sale_mut_cases (st : PharmacyState)
    (interf : List Medicament → List Medicament)
    (hs : (SaleService.validate_sale_mut st interf).1.1 = true) :
    ∃ uid, st.current_user = some uid ∧
      SaleService.validate_sale_mut st interf = SaleService.commitPhase st interf uid := by
  unfold SaleService.validate_sale_mut at hs ⊢
  split at hs
  · exact absurd hs Bool.false_ne_true
  · rename_i hne
    cases huser : st.current_user with
    | none =>
      rw [huser] at hs
      exact absurd hs Bool.false_ne_true
    | some uid =>
      rw [huser] at hs
      dsimp only at hs
      cases hfind : st.cart.items.find? (fun it =>
          !(StockService.check_stock_availability st it.medicament.id it.quantity).1) with
      | some it =>
        rw [hfind] at hs
        exact absurd hs Bool.false_ne_true
      | none =>
        refine ⟨uid, rfl, ?_⟩
        rw [if_neg hne]

/-- Behaviour of apply_discount on a non-negative 2-decimal amount, with
the tier table within bounds: the returned discount and final amounts are
the two independent half-to-even roundings, both within [0, amount]. -/
theorem apply_discount_spec (tiers : List LoyaltyTier) (s : ℚ) (c : Client)
    (hs0 : 0 ≤ s) (hcs : IsCents s)
    (htb : ∀ t ∈ tiers, 0 ≤ t.discount_percentage ∧ t.discount_percentage ≤ 100) :
    (LoyaltyService.apply_discount tiers s (some c)).2.2 =
      roundHalfEven2 (s * ((LoyaltyService.apply_discount tiers s (some c)).2.1 / 100)) ∧
    roundHalfUp2 (LoyaltyService.apply_discount tiers s (some c)).1 =
      roundHalfEven2 (s - s * ((LoyaltyService.apply_discount tiers s (some c)).2.1 / 100)) ∧
    0 ≤ (LoyaltyService.apply_discount tiers s (some c)).2.2 ∧
    (LoyaltyService.apply_discount tiers s (some c)).2.2 ≤ s ∧
    0 ≤ roundHalfUp2 (LoyaltyService.apply_discount tiers s (some c)).1 ∧
    roundHalfUp2 (LoyaltyService.apply_discount tiers s (some c)).1 ≤ s := by
  obtain ⟨n, hn⟩ := hcs
  have hzero : ∀ s2 : ℚ, s2 = s →
      s2 = roundHalfEven2 (s * ((0 : ℚ) / 100)) + s2 - roundHalfEven2 (s * ((0 : ℚ) / 100)) := by
    intro s2 _
    simp [roundHalfEven2_zero]
  unfold LoyaltyService.apply_discount
  dsimp only
  split
  · rename_i hle
    have hs00 : s = 0 := le_antisymm hle hs0
    subst hs00
    have h0 : ((0 : ℚ)) * ((0 : ℚ)/100) = 0 := by ring
    refine ⟨?_, ?_, le_refl 0, le_refl 0, ?_, ?_⟩
    · rw [h0, roundHalfEven2_zero]
    · rw [h0, sub_zero, roundHalfEven2_zero, roundHalfUp2_fix 0 ⟨0, by norm_num⟩]
    · rw [roundHalfUp2_fix 0 ⟨0, by norm_num⟩]
    · rw [roundHalfUp2_fix 0 ⟨0, by norm_num⟩]
  · split
    · have h0 : s * ((0 : ℚ)/100) = 0 := by ring
      have hfix : roundHalfUp2 s = s := roundHalfUp2_fix s ⟨n, hn⟩
      have hfixe : roundHalfEven2 s = s := roundHalfEven2_fix s ⟨n, hn⟩
      refine ⟨?_, ?_, le_refl 0, hs0, ?_, ?_⟩
      · rw [h0, roundHalfEven2_zero]
      · rw [h0, sub_zero, hfixe, hfix]
      · rw [hfix]; exact hs0
      · rw [hfix]
    · rename_i hsle hple
      have hp : 0 < LoyaltyService.get_client_discount tiers c := by
        push_neg at hple
        exact hple
      have hp100 : LoyaltyService.get_client_discount tiers c ≤ 100 :=
        (get_client_discount_bounds tiers c htb).2
      set p := LoyaltyService.get_client_discount tiers c with hpdef
      have hd0 : 0 ≤ s * (p / 100) :=
        mul_nonneg hs0 (div_nonneg (le_of_lt hp) (by norm_num))
      have hds : s * (p / 100) ≤ s := by
        have hle1 : p / 100 ≤ 1 := by
          rw [div_le_one (by norm_num : (0:ℚ) < 100)]
          exact hp100
        calc s * (p / 100) ≤ s * 1 := mul_le_mul_of_nonneg_left hle1 hs0
          _ = s := mul_one s
      have hcents : IsCents (roundHalfEven2 (s - s * (p / 100))) := roundHalfEven2_isCents _
      have hfixup : roundHalfUp2 (roundHalfEven2 (s - s * (p / 100))) =
          roundHalfEven2 (s - s * (p / 100)) := roundHalfUp2_fix _ hcents
      refine ⟨rfl, ?_, ?_, ?_, ?_, ?_⟩
      · exact hfixup
      · exact roundHalfEven2_nonneg _ hd0
      · rw [hn]
        exact roundHalfEven2_le_cents _ n (by rw [← hn]; exact hds)
      · rw [hfixup]
        exact roundHalfEven2_nonneg _ (by linarith)
      · rw [hfixup, hn]
        exact roundHalfEven2_le_cents _ n (by rw [← hn]; linarith)

/-- Claim C1 amended: for every sale committed by a successful
validate_sale run over a well-formed cart and a tier table with
percentages in [0, 100], the persisted fields satisfy
discount_amount = roundHalfEven(subtotal × pct / 100) and
total = roundHalfEven(subtotal − subtotal × pct / 100) — Python's
builtin round (banker's rounding), each rounding applied independently —
with all amounts non-negative and bounded by the subtotal.  The claimed
identities total = subtotal − discount_amount and half-up rounding do
not hold in general (see the counterexample). -/
theorem C1_monetary_fields (st : PharmacyState)
    (hitems : ∀ it ∈ st.cart.items, 0 < it.quantity ∧ 0 ≤ it.unit_price)
    (htiers : ∀ t ∈ st.tiers, 0 ≤ t.discount_percentage ∧ t.discount_percentage ≤ 100)
    (hs : (SaleService.validate_sale st).1.1 = true) :
    (saleOfResult (SaleService.validate_sale st)).discount_amount =
      roundHalfEven2 ((saleOfResult (SaleService.validate_sale st)).subtotal *
        ((saleOfResult (SaleService.validate_sale st)).discount_percentage / 100)) ∧
    (saleOfResult (SaleService.validate_sale st)).total =
      roundHalfEven2 ((saleOfResult (SaleService.validate_sale st)).subtotal -
        (saleOfResult (SaleService.validate_sale st)).subtotal *
          ((saleOfResult (SaleService.validate_sale st)).discount_percentage / 100)) ∧
    0 ≤ (saleOfResult (SaleService.validate_sale st)).subtotal ∧
    0 ≤ (saleOfResult (SaleService.validate_sale st)).discount_amount ∧
    (saleOfResult (SaleService.validate_sale st)).discount_amount ≤
      (saleOfResult (SaleService.validate_sale st)).subtotal ∧
    0 ≤ (saleOfResult (SaleService.validate_sale st)).total ∧
    (saleOfResult (SaleService.validate_sale st)).total ≤
      (saleOfResult (SaleService.validate_sale st)).subtotal := by
  obtain ⟨uid, huser, hrun⟩ := validate_sale_mut_cases st (fun meds => meds) hs
  have hsub0 : 0 ≤ st.cart.subtotal := cart_subtotal_nonneg st.cart hitems
  have hsubc : IsCents st.cart.subtotal := roundHalfUp2_isCents _
  have hfs : saleOfResult (SaleService.validate_sale st) =
      (SaleRepository.create st.sales
        (SaleService.mkPendingSale st uid (SaleService.calculate_totals st))).1 := by
    show saleOfResult (SaleService.validate_sale_mut st (fun meds => meds)) = _
    rw [hrun]
    rfl
  have h1 : (saleOfResult (SaleService.validate_sale st)).subtotal =
      (SaleService.calculate_totals st).subtotal := by rw [hfs]; rfl
  have h2 : (saleOfResult (SaleService.validate_sale st)).discount_percentage =
      (SaleService.calculate_totals st).discount_percentage := by rw [hfs]; rfl
  have h3 : (saleOfResult (SaleService.validate_sale st)).discount_amount =
      (SaleService.calculate_totals st).discount_amount := by rw [hfs]; rfl
  have h4 : (saleOfResult (SaleService.validate_sale st)).total =
      (SaleService.calculate_totals st).total := by rw [hfs]; rfl
  rw [h1, h2, h3, h4]
  cases hcl : st.cart.client with
  | none =>
    rw [calculate_totals_none st hcl]
    dsimp only
    have hz : st.cart.subtotal * ((0 : ℚ) / 100) = 0 := by ring
    have hfix : roundHalfUp2 st.cart.subtotal = st.cart.subtotal :=
      roundHalfUp2_fix _ hsubc
    have hfixe : roundHalfEven2 st.cart.subtotal = st.cart.subtotal :=
      roundHalfEven2_fix _ hsubc
    refine ⟨?_, ?_, hsub0, le_refl 0, hsub0, ?_, ?_⟩
    · rw [hz, roundHalfEven2_zero]
    · rw [hz, sub_zero, hfixe, hfix]
    · rw [hfix]; exact hsub0
    · rw [hfix]
  | some c =>
    rw [calculate_totals_some st c hcl]
    dsimp only
    obtain ⟨a1, a2, a3, a4, a5, a6⟩ :=
      apply_discount_spec st.tiers st.cart.subtotal c hsub0 hsubc htiers
    exact ⟨a1, a2, hsub0, a3, a4, a5, a6⟩

def tierHalf : LoyaltyTier :=
  { name := "Moitie", min_points := 0, discount_percentage := 50, is_active := true }

def clientTier : Client :=
  { id := 1, loyalty_points := 100, total_spent := 0, is_active := true }

def medCheap : Medicament :=
  { id := 1, name := "GEL25", selling_price := 1/4, quantity_in_stock := 10,
    is_active := true }

def itemCheap : CartItem :=
  { medicament := medCheap, quantity := 1, unit_price := 1/4 }

def stC1 : PharmacyState :=
  { medicaments := [medCheap], clients := [clientTier], tiers := [tierHalf],
    movements := [], sales := [],
    cart := { items := [itemCheap], client := some clientTier },
    current_user := some 1, points_per_unit := 10 }

theorem stC1_subtotal : stC1.cart.subtotal = 1/4 := by
  show roundHalfUp2 (([itemCheap].map CartItem.line_total).sum) = 1/4
  rw [List.map_singleton, List.sum_singleton]
  unfold CartItem.line_total itemCheap
  dsimp only
  have h1 : (((1 : ℤ) : ℚ)) * ((1 : ℚ)/4) = (1 : ℚ)/4 := by norm_num
  have hc : IsCents ((1 : ℚ)/4) := ⟨25, by norm_num⟩
  rw [h1, roundHalfUp2_fix _ hc, roundHalfUp2_fix _ hc]

/-- Claim C1 as stated is false on the code: committing a cart with
subtotal 0.25 for a customer in a 50% tier persists
discount_amount = 0.12 (banker's rounding of 0.125, not the claimed
half-up 0.13) and total = 0.12 ≠ subtotal − discount_amount = 0.13. -/
theorem C1_counterexample :
    (saleOfResult (SaleService.validate_sale stC1)).subtotal = 1/4 ∧
    (saleOfResult (SaleService.validate_sale stC1)).discount_amount = 3/25 ∧
    (saleOfResult (SaleService.validate_sale stC1)).total = 3/25 ∧
    (saleOfResult (SaleService.validate_sale stC1)).total ≠
      (saleOfResult (SaleService.validate_sale stC1)).subtotal -
        (saleOfResult (SaleService.validate_sale stC1)).discount_amount ∧
    (saleOfResult (SaleService.validate_sale stC1)).discount_amount ≠
      roundHalfUp2 ((saleOfResult (SaleService.validate_sale stC1)).subtotal *
        (saleOfResult (SaleService.validate_sale stC1)).discount_percentage / 100) := by
  have hrun : SaleService.validate_sale stC1 =
      SaleService.commitPhase stC1 (fun meds => meds) 1 :=
    validate_sale_mut_run stC1 (fun meds => meds) 1 rfl rfl (by decide)
  have hfs : saleOfResult (SaleService.validate_sale stC1) =
      (SaleRepository.create stC1.sales
        (SaleService.mkPendingSale stC1 1 (SaleService.calculate_totals stC1))).1 := by
    rw [hrun]
    rfl
  have hdisc : LoyaltyService.get_client_discount stC1.tiers clientTier = 50 := rfl
  have happ : LoyaltyService.apply_discount stC1.tiers stC1.cart.subtotal
      (some clientTier) = (3/25, 50, 3/25) := by
    unfold LoyaltyService.apply_discount
    dsimp only
    rw [stC1_subtotal, if_neg (by norm_num : ¬(1 : ℚ)/4 ≤ 0), hdisc,
      if_neg (by norm_num : ¬(50 : ℚ) ≤ 0)]
    rw [show ((1 : ℚ)/4) * ((50 : ℚ)/100) = 1/8 by norm_num]
    rw [show ((1 : ℚ)/4) - (1 : ℚ)/8 = 1/8 by norm_num]
    have he : roundHalfEven2 ((1 : ℚ)/8) = 3/25 := by with_unfolding_all decide
    rw [he]
  have htotals : SaleService.calculate_totals stC1 =
      { subtotal := stC1.cart.subtotal, discount_percentage := 50,
        discount_amount := 3/25, total := roundHalfUp2 (3/25),
        points_earned := LoyaltyService.calculate_points_earned stC1.points_per_unit (3/25),
        items_count := stC1.cart.items_count } := by
    rw [calculate_totals_some stC1 clientTier rfl, happ]
  have hfixt : roundHalfUp2 ((3 : ℚ)/25) = 3/25 :=
    roundHalfUp2_fix _ ⟨12, by norm_num⟩
  have hsub : (saleOfResult (SaleService.validate_sale stC1)).subtotal = 1/4 := by
    rw [hfs]
    show (SaleService.calculate_totals stC1).subtotal = 1/4
    rw [htotals]
    exact stC1_subtotal
  have hda : (saleOfResult (SaleService.validate_sale stC1)).discount_amount = 3/25 := by
    rw [hfs]
    show (SaleService.calculate_totals stC1).discount_amount = 3/25
    rw [htotals]
  have hdt : (saleOfResult (SaleService.validate_sale stC1)).total = 3/25 := by
    rw [hfs]
    show (SaleService.calculate_totals stC1).total = 3/25
    rw [htotals]
    exact hfixt
  have hdp : (saleOfResult (SaleService.validate_sale stC1)).discount_percentage = 50 := by
    rw [hfs]
    show (SaleService.calculate_totals stC1).discount_percentage = 50
    rw [htotals]
  refine ⟨hsub, hda, hdt, ?_, ?_⟩
  · rw [hsub, hda, hdt]
    norm_num
  · rw [hsub, hda, hdp]
    have hq : ((1 : ℚ)/4) * (50 : ℚ) / 100 = 1/8 := by norm_num
    rw [hq]
    have hu : roundHalfUp2 ((1 : ℚ)/8) = 13/100 := by with_unfolding_all decide
    rw [hu]
    norm_num

/-- Witness for C1 amended at the concrete 0.25 / 50% commit. -/
theorem C1_monetary_fields_witness :
    (saleOfResult (SaleService.validate_sale stC1)).discount_amount =
      roundHalfEven2 ((saleOfResult (SaleService.validate_sale stC1)).subtotal *
        ((saleOfResult (SaleService.validate_sale stC1)).discount_percentage / 100)) ∧
    (saleOfResult (SaleService.validate_sale stC1)).total =
      roundHalfEven2 ((saleOfResult (SaleService.validate_sale stC1)).subtotal -
        (saleOfResult (SaleService.validate_sale stC1)).subtotal *
          ((saleOfResult (SaleService.validate_sale stC1)).discount_percentage / 100)) ∧
    0 ≤ (saleOfResult (SaleService.validate_sale stC1)).subtotal ∧
    0 ≤ (saleOfResult (SaleService.validate_sale stC1)).discount_amount ∧
    (saleOfResult (SaleService.validate_sale stC1)).discount_amount ≤
      (saleOfResult (SaleService.validate_sale stC1)).subtotal ∧
    0 ≤ (saleOfResult (SaleService.validate_sale stC1)).total ∧
    (saleOfResult (SaleService.validate_sale stC1)).total ≤
      (saleOfResult (SaleService.validate_sale stC1)).subtotal :=
  C1_monetary_fields stC1 (by with_unfolding_all decide) (by with_unfolding_all decide)
    (by decide)

def saleC4 : Sale :=
  { id := 1, sale_number := "VNT-1", user_id := 1, client_id := some 1,
    subtotal := 1000, discount_percentage := 0, discount_amount := 0, total := 1000,
    loyalty_points_earned := 10, loyalty_points_used := 0, status := "completed",
    lines := [{ sale_id := 1, medicament_id := 1, quantity := 1, unit_price := 1000,
                line_total := 1000 }] }

def clientLow : Client :=
  { id := 1, loyalty_points := 5, total_spent := 0, is_active := true }

def clientHigh : Client :=
  { id := 1, loyalty_points := 50, total_spent := 0, is_active := true }

def stC4low : PharmacyState :=
  { medicaments := [medPara], clients := [clientLow], tiers := [], movements := [],
    sales := [saleC4], cart := { items := [], client := none },
    current_user := some 1, points_per_unit := 10 }

def stC4high : PharmacyState :=
  { medicaments := [medPara], clients := [clientHigh], tiers := [], movements := [],
    sales := [saleC4], cart := { items := [], client := none },
    current_user := some 1, points_per_unit := 10 }

/-- Claim C4 as stated is false on the code: cancelling a completed sale
with earned points P = 10 against a customer balance B = 5 < P leaves
the balance at 5 — the deduction is refused outright by
use_client_points, not clamped down to zero — while the cancellation as
a whole still reports success. -/
theorem C4_counterexample :
    (SaleService.cancel_sale stC4low 1).1.1 = true ∧
    pointsOf (SaleService.cancel_sale stC4low 1).2.clients 1 = some 5 := by
  refine ⟨by decide, by decide⟩

/-- Claim C4 amended: on cancellation of a completed sale with attached
customer and earned points P > 0, the cancellation always succeeds, but
the point deduction is all-or-nothing, not clamped: if the customer's
balance B is at least P, exactly P points are removed; if B < P, the
deduction is refused and the balance is left at B (not reduced to
zero). -/
theorem C4_deduction_not_clamped (st : PharmacyState) (sid : ℕ) (sale : Sale)
    (cid : ℕ) (c : Client)
    (hf : SaleRepository.get_by_id st.sales sid = some sale)
    (hst : sale.status = "completed")
    (hcid : sale.client_id = some cid) (hcid0 : cid ≠ 0)
    (hP : 0 < sale.loyalty_points_earned)
    (hc : ClientRepository.get_by_id st.clients cid = some c) :
    (SaleService.cancel_sale st sid).1.1 = true ∧
    pointsOf (SaleService.cancel_sale st sid).2.clients cid =
      some (if sale.loyalty_points_earned ≤ c.loyalty_points then
              c.loyalty_points - sale.loyalty_points_earned
            else c.loyalty_points) := by
  have ht := sale_repo_cancel_true st.sales sid sale hf
  unfold SaleService.cancel_sale
  rw [hf]
  dsimp only
  rw [if_neg (by rw [hst]; decide), ht, if_pos (Eq.refl true)]
  dsimp only
  rw [hcid]
  dsimp only
  rw [if_pos ⟨hcid0, hP⟩]
  refine ⟨rfl, ?_⟩
  have hclients : (SaleService.addLoop
      { st with sales := (SaleRepository.cancel st.sales sid).2 } sale.lines
      ("Annulation vente " ++ sale.sale_number)).clients = st.clients :=
    (addLoop_frame _ _ _).1
  dsimp only
  rw [hclients]
  exact use_client_points_spec st.clients cid sale.loyalty_points_earned c hP hc

/-- Witness for C4 amended: with balance 50 and earned points 10, the
cancellation succeeds and removes exactly 10 points. -/
theorem C4_deduction_not_clamped_witness :
    (SaleService.cancel_sale stC4high 1).1.1 = true ∧
    pointsOf (SaleService.cancel_sale stC4high 1).2.clients 1 =
      some (if saleC4.loyalty_points_earned ≤ clientHigh.loyalty_points then
              clientHigh.loyalty_points - saleC4.loyalty_points_earned
            else clientHigh.loyalty_points) :=
  C4_deduction_not_clamped stC4high 1 saleC4 1 clientHigh rfl rfl rfl
    (by decide) (by decide) rfl

/-- With a client attached, the recorded projected points are the loyalty
engine value of the recorded total. -/
theorem calc_totals_points_eq (st : PharmacyState) (c : Client)
    (hcl : st.cart.client = some c) :
    (SaleService.calculate_totals st).points_earned =
      LoyaltyService.calculate_points_earned st.points_per_unit
        (SaleService.calculate_totals st).total := by
  have hfinal := roundHalfUp2_fix _
    (apply_discount_isCents st.tiers st.cart.subtotal (some c) (roundHalfUp2_isCents _))
  rw [calculate_totals_some st c hcl]
  dsimp only
  rw [hfinal]

theorem pointsOf_inv (clients : List Client) (cid : ℕ) (v : ℤ)
    (h : pointsOf clients cid = some v) :
    ∃ c1, ClientRepository.get_by_id clients cid = some c1 ∧ c1.loyalty_points = v := by
  unfold pointsOf at h
  cases hg : ClientRepository.get_by_id clients cid with
  | none =>
    rw [hg] at h
    exact absurd h (by simp)
  | some c1 =>
    rw [hg] at h
    exact ⟨c1, rfl, by simpa using h⟩

/-- The freshly created sale is found again by its new id (it heads the
table and its id is fresh). -/
theorem create_prepend_find (sales : List Sale) (sale : Sale) :
    SaleRepository.get_by_id (SaleRepository.create sales sale).2
      (SaleRepository.create sales sale).1.id =
      some (SaleRepository.create sales sale).1 := by
  unfold SaleRepository.get_by_id SaleRepository.create
  dsimp only
  exact List.find?_cons_of_pos sales (by simp)

/-- Claim C10: on a successful commit with an attached customer, the
points credited to the balance equal the loyalty_points_earned recorded
on the persisted Sale, and an immediate cancellation deducts exactly that
amount, restoring the original balance. -/
theorem C10_credited_equals_recorded (st : PharmacyState) (c c0 : Client)
    (hcl : st.cart.client = some c)
    (hc : ClientRepository.get_by_id st.clients c.id = some c0)
    (hb : 0 ≤ c0.loyalty_points)
    (hcid0 : c.id ≠ 0)
    (hs : (SaleService.validate_sale st).1.1 = true) :
    pointsOf (SaleService.validate_sale st).2.clients c.id =
      some (c0.loyalty_points +
        (saleOfResult (SaleService.validate_sale st)).loyalty_points_earned) ∧
    (SaleService.cancel_sale (SaleService.validate_sale st).2
        (saleOfResult (SaleService.validate_sale st)).id).1.1 = true ∧
    pointsOf (SaleService.cancel_sale (SaleService.validate_sale st).2
        (saleOfResult (SaleService.validate_sale st)).id).2.clients c.id =
      some c0.loyalty_points := by
  obtain ⟨uid, huser, hrun⟩ := validate_sale_mut_cases st (fun meds => meds) hs
  have hfs : saleOfResult (SaleService.validate_sale st) =
      (SaleRepository.create st.sales
        (SaleService.mkPendingSale st uid (SaleService.calculate_totals st))).1 := by
    show saleOfResult (SaleService.validate_sale_mut st (fun meds => meds)) = _
    rw [hrun]
    rfl
  have hpe : (saleOfResult (SaleService.validate_sale st)).loyalty_points_earned =
      LoyaltyService.calculate_points_earned st.points_per_unit
        (SaleService.calculate_totals st).total := by
    rw [hfs]
    show (SaleService.calculate_totals st).points_earned = _
    exact calc_totals_points_eq st c hcl
  have hstc : (SaleService.validate_sale st).2.clients =
      (SaleService.creditClient
        (SaleService.removeLoop
          { st with
              sales := (SaleRepository.create st.sales
                (SaleService.mkPendingSale st uid (SaleService.calculate_totals st))).2,
              medicaments := st.medicaments }
          st.cart.items
          (some (SaleRepository.create st.sales
            (SaleService.mkPendingSale st uid (SaleService.calculate_totals st))).1.id))
        st.cart.client (SaleService.calculate_totals st).total).clients := by
    show (SaleService.validate_sale_mut st (fun meds => meds)).2.clients = _
    rw [hrun]
    rfl
  have hcl2 : (SaleService.removeLoop
      { st with
          sales := (SaleRepository.create st.sales
            (SaleService.mkPendingSale st uid (SaleService.calculate_totals st))).2,
          medicaments := st.medicaments }
      st.cart.items
      (some (SaleRepository.create st.sales
        (SaleService.mkPendingSale st uid (SaleService.calculate_totals st))).1.id)).clients =
      st.clients := (removeLoop_frame _ _ _).1
  have hppu2 : (SaleService.removeLoop
      { st with
          sales := (SaleRepository.create st.sales
            (SaleService.mkPendingSale st uid (SaleService.calculate_totals st))).2,
          medicaments := st.medicaments }
      st.cart.items
      (some (SaleRepository.create st.sales
        (SaleService.mkPendingSale st uid (SaleService.calculate_totals st))).1.id)).points_per_unit =
      st.points_per_unit := (removeLoop_frame _ _ _).2.2.2.2.2
  have hcommit : pointsOf (SaleService.validate_sale st).2.clients c.id =
      some (c0.loyalty_points +
        LoyaltyService.calculate_points_earned st.points_per_unit
          (SaleService.calculate_totals st).total) := by
    rw [hstc, hcl]
    have hcp := creditClient_points _ c c0 (SaleService.calculate_totals st).total
      (by rw [hcl2]; exact hc) hb
    rw [hppu2] at hcp
    exact hcp
  have hsales : (SaleService.validate_sale st).2.sales =
      (SaleRepository.create st.sales
        (SaleService.mkPendingSale st uid (SaleService.calculate_totals st))).2 := by
    show (SaleService.validate_sale_mut st (fun meds => meds)).2.sales = _
    rw [hrun]
    exact commitPhase_sales st _ uid
  have hsid : SaleRepository.get_by_id (SaleService.validate_sale st).2.sales
      (saleOfResult (SaleService.validate_sale st)).id =
      some (saleOfResult (SaleService.validate_sale st)) := by
    rw [hsales, hfs]
    exact create_prepend_find st.sales _
  have hstatus : (saleOfResult (SaleService.validate_sale st)).status = "completed" := by
    rw [hfs]
    rfl
  have hclid : (saleOfResult (SaleService.validate_sale st)).client_id = some c.id := by
    rw [hfs]
    show (SaleService.mkPendingSale st uid (SaleService.calculate_totals st)).client_id =
      some c.id
    unfold SaleService.mkPendingSale
    dsimp only
    rw [hcl]
    rfl
  have htc := sale_repo_cancel_true _ _ _ hsid
  have hnonneg := calculate_points_earned_nonneg st.points_per_unit
    (SaleService.calculate_totals st).total
  refine ⟨by rw [hpe]; exact hcommit, ?_, ?_⟩
  · unfold SaleService.cancel_sale
    rw [hsid]
    dsimp only
    rw [if_neg (by rw [hstatus]; decide), htc, if_pos (Eq.refl true)]
  · unfold SaleService.cancel_sale
    rw [hsid]
    dsimp only
    rw [if_neg (by rw [hstatus]; decide), htc, if_pos (Eq.refl true)]
    dsimp only
    rw [hclid]
    dsimp only
    have hclients2 : (SaleService.addLoop
        { (SaleService.validate_sale st).2 with
            sales := (SaleRepository.cancel (SaleService.validate_sale st).2.sales
              (saleOfResult (SaleService.validate_sale st)).id).2 }
        (saleOfResult (SaleService.validate_sale st)).lines
        ("Annulation vente " ++
          (saleOfResult (SaleService.validate_sale st)).sale_number)).clients =
        (SaleService.validate_sale st).2.clients := (addLoop_frame _ _ _).1
    by_cases hP : 0 < (saleOfResult (SaleService.validate_sale st)).loyalty_points_earned
    · rw [if_pos ⟨hcid0, hP⟩]
      dsimp only
      rw [hclients2]
      obtain ⟨c1, hg1, hpts1⟩ := pointsOf_inv _ _ _ hcommit
      rw [use_client_points_spec (SaleService.validate_sale st).2.clients c.id
        (saleOfResult (SaleService.validate_sale st)).loyalty_points_earned c1 hP hg1]
      rw [if_pos (by rw [hpts1, hpe]; omega)]
      rw [hpts1, hpe]
      congr 1
      omega
    · rw [if_neg (fun hand => hP hand.2)]
      rw [hclients2, hcommit]
      have hP0 : LoyaltyService.calculate_points_earned st.points_per_unit
          (SaleService.calculate_totals st).total = 0 := by
        rw [hpe] at hP
        omega
      rw [hP0, add_zero]

/-- Witness for C10 on a concrete commit-then-cancel: zero-point customer,
cart total 5000, points-per-unit 10, so 500 points are credited, recorded
and deducted again. -/
theorem C10_credited_equals_recorded_witness :
    pointsOf (SaleService.validate_sale stCartParaClient).2.clients clientZeroFx.id =
      some (clientZeroFx.loyalty_points +
        (saleOfResult (SaleService.validate_sale stCartParaClient)).loyalty_points_earned) ∧
    (SaleService.cancel_sale (SaleService.validate_sale stCartParaClient).2
        (saleOfResult (SaleService.validate_sale stCartParaClient)).id).1.1 = true ∧
    pointsOf (SaleService.cancel_sale (SaleService.validate_sale stCartParaClient).2
        (saleOfResult (SaleService.validate_sale stCartParaClient)).id).2.clients
        clientZeroFx.id =
      some clientZeroFx.loyalty_points :=
  C10_credited_equals_recorded stCartParaClient clientZeroFx clientZeroFx rfl rfl
    (by decide) (by decide) (by decide)

/-- The sale line recorded for a cart item under a given sale id. -/
def lineOfItem (sid : ℕ) (it : CartItem) : SaleLine :=
  { sale_id := sid, medicament_id := it.medicament.id, quantity := it.quantity,
    unit_price := it.unit_price, line_total := it.line_total }

/-- The persisted lines are the cart items carrying the fresh sale id. -/
theorem create_lines_map (st : PharmacyState) (uid : ℕ) :
    (SaleRepository.create st.sales
        (SaleService.mkPendingSale st uid (SaleService.calculate_totals st))).1.lines =
      st.cart.items.map (lineOfItem (SaleRepository.create st.sales
        (SaleService.mkPendingSale st uid (SaleService.calculate_totals st))).1.id) := by
  unfold SaleRepository.create SaleService.mkPendingSale lineOfItem
  dsimp only
  rw [List.map_map]
  rfl

/-- Claim C3: commit followed by cancellation is a stock round-trip.  For
a well-formed commit (non-empty cart, session user, no duplicate medicine
in the cart, each line within live stock) validate_sale succeeds,
cancelling the created sale succeeds, and every medicine's
quantity-in-stock is back exactly at its pre-commit level. -/
theorem C3_commit_cancel_stock_roundtrip (st : PharmacyState) (uid : ℕ)
    (hne : st.cart.items.isEmpty = false)
    (huser : st.current_user = some uid)
    (hnd : (st.cart.items.map (fun it => it.medicament.id)).Nodup)
    (hok : ∀ it ∈ st.cart.items, 0 < it.quantity ∧
      ∃ m, MedicamentRepository.get_by_id st.medicaments it.medicament.id = some m ∧
        it.quantity ≤ m.quantity_in_stock) :
    (SaleService.validate_sale st).1.1 = true ∧
    (SaleService.cancel_sale (SaleService.validate_sale st).2
        (saleOfResult (SaleService.validate_sale st)).id).1.1 = true ∧
    (∀ j, stockOf (SaleService.cancel_sale (SaleService.validate_sale st).2
        (saleOfResult (SaleService.validate_sale st)).id).2.medicaments j =
      stockOf st.medicaments j) := by
  have hchk : ∀ it ∈ st.cart.items,
      (StockService.check_stock_availability st it.medicament.id it.quantity).1 = true := by
    intro it hit
    obtain ⟨hq, m, hm, hle⟩ := hok it hit
    exact check_stock_true st _ _ m hm hle
  have hrun := validate_sale_mut_run st (fun meds => meds) uid hne huser hchk
  have hs : (SaleService.validate_sale st).1.1 = true := by
    show (SaleService.validate_sale_mut st (fun meds => meds)).1.1 = true
    rw [hrun]
    rfl
  have hfs : saleOfResult (SaleService.validate_sale st) =
      (SaleRepository.create st.sales
        (SaleService.mkPendingSale st uid (SaleService.calculate_totals st))).1 := by
    show saleOfResult (SaleService.validate_sale_mut st (fun meds => meds)) = _
    rw [hrun]
    rfl
  have hmeds : (SaleService.validate_sale st).2.medicaments =
      (SaleService.removeLoop
        { st with
            sales := (SaleRepository.create st.sales
              (SaleService.mkPendingSale st uid (SaleService.calculate_totals st))).2,
            medicaments := st.medicaments }
        st.cart.items
        (some (SaleRepository.create st.sales
          (SaleService.mkPendingSale st uid (SaleService.calculate_totals st))).1.id)).medicaments := by
    show (SaleService.validate_sale_mut st (fun meds => meds)).2.medicaments = _
    rw [hrun, commitPhase_meds]
  have hafter_mem : ∀ it ∈ st.cart.items, ∀ m,
      MedicamentRepository.get_by_id st.medicaments it.medicament.id = some m →
      MedicamentRepository.get_by_id (SaleService.validate_sale st).2.medicaments
        it.medicament.id =
        some { m with quantity_in_stock := m.quantity_in_stock - it.quantity } := by
    intro it hit m hm
    rw [hmeds]
    refine removeLoop_get_eq st.cart.items _ _ hnd ?_ it hit m hm
    exact hok
  have hafter_not : ∀ j, (∀ it ∈ st.cart.items, it.medicament.id ≠ j) →
      MedicamentRepository.get_by_id (SaleService.validate_sale st).2.medicaments j =
        MedicamentRepository.get_by_id st.medicaments j := by
    intro j hj
    rw [hmeds]
    exact removeLoop_get_ne st.cart.items _ _ j hj
  have hsales : (SaleService.validate_sale st).2.sales =
      (SaleRepository.create st.sales
        (SaleService.mkPendingSale st uid (SaleService.calculate_totals st))).2 := by
    show (SaleService.validate_sale_mut st (fun meds => meds)).2.sales = _
    rw [hrun]
    exact commitPhase_sales st _ uid
  have hsid : SaleRepository.get_by_id (SaleService.validate_sale st).2.sales
      (saleOfResult (SaleService.validate_sale st)).id =
      some (saleOfResult (SaleService.validate_sale st)) := by
    rw [hsales, hfs]
    exact create_prepend_find st.sales _
  have hstatus : (saleOfResult (SaleService.validate_sale st)).status = "completed" := by
    rw [hfs]
    rfl
  have htc := sale_repo_cancel_true _ _ _ hsid
  have hlines : (saleOfResult (SaleService.validate_sale st)).lines =
      st.cart.items.map (lineOfItem (SaleRepository.create st.sales
        (SaleService.mkPendingSale st uid (SaleService.calculate_totals st))).1.id) := by
    rw [hfs]
    exact create_lines_map st uid
  have hcm : (SaleService.cancel_sale (SaleService.validate_sale st).2
      (saleOfResult (SaleService.validate_sale st)).id).2.medicaments =
      (SaleService.addLoop
        { (SaleService.validate_sale st).2 with
            sales := (SaleRepository.cancel (SaleService.validate_sale st).2.sales
              (saleOfResult (SaleService.validate_sale st)).id).2 }
        (saleOfResult (SaleService.validate_sale st)).lines
        ("Annulation vente " ++
          (saleOfResult (SaleService.validate_sale st)).sale_number)).medicaments := by
    unfold SaleService.cancel_sale
    rw [hsid]
    dsimp only
    rw [if_neg (by rw [hstatus]; decide), htc, if_pos (Eq.refl true)]
    dsimp only
    cases hci : (saleOfResult (SaleService.validate_sale st)).client_id with
    | none => rfl
    | some cid2 =>
      dsimp only
      split
      · rfl
      · rfl
  have hnd2 : ((saleOfResult (SaleService.validate_sale st)).lines.map
      (fun l => l.medicament_id)).Nodup := by
    rw [hlines, List.map_map]
    exact hnd
  have hok2 : ∀ l ∈ (saleOfResult (SaleService.validate_sale st)).lines,
      0 < l.quantity ∧
      ∃ m2, MedicamentRepository.get_by_id
        ({ (SaleService.validate_sale st).2 with
            sales := (SaleRepository.cancel (SaleService.validate_sale st).2.sales
              (saleOfResult (SaleService.validate_sale st)).id).2 } :
          PharmacyState).medicaments l.medicament_id = some m2 ∧
        0 ≤ m2.quantity_in_stock + l.quantity := by
    intro l hl
    rw [hlines] at hl
    obtain ⟨it, hit, rfl⟩ := List.mem_map.mp hl
    obtain ⟨hq, m, hm, hle⟩ := hok it hit
    refine ⟨hq, { m with quantity_in_stock := m.quantity_in_stock - it.quantity }, ?_, ?_⟩
    · exact hafter_mem it hit m hm
    · show 0 ≤ (m.quantity_in_stock - it.quantity) + (lineOfItem _ it).quantity
      show 0 ≤ (m.quantity_in_stock - it.quantity) + it.quantity
      omega
  refine ⟨hs, ?_, ?_⟩
  · unfold SaleService.cancel_sale
    rw [hsid]
    dsimp only
    rw [if_neg (by rw [hstatus]; decide), htc, if_pos (Eq.refl true)]
  · intro j
    rw [stockOf, stockOf, hcm]
    by_cases hj : ∃ it ∈ st.cart.items, it.medicament.id = j
    · obtain ⟨it, hit, rfl⟩ := hj
      obtain ⟨hq, m, hm, hle⟩ := hok it hit
      have hlmem : lineOfItem (SaleRepository.create st.sales
            (SaleService.mkPendingSale st uid (SaleService.calculate_totals st))).1.id it ∈
          (saleOfResult (SaleService.validate_sale st)).lines := by
        rw [hlines]
        exact List.mem_map_of_mem _ hit
      have h2 := addLoop_get_eq (saleOfResult (SaleService.validate_sale st)).lines
        _ ("Annulation vente " ++ (saleOfResult (SaleService.validate_sale st)).sale_number)
        hnd2 hok2 _ hlmem
        { m with quantity_in_stock := m.quantity_in_stock - it.quantity }
        (hafter_mem it hit m hm)
      dsimp only [lineOfItem] at h2
      rw [h2, hm]
      show some ((m.quantity_in_stock - it.quantity) + it.quantity) =
        some m.quantity_in_stock
      congr 1
      omega
    · push_neg at hj
      have h2 : MedicamentRepository.get_by_id
          (SaleService.addLoop
            { (SaleService.validate_sale st).2 with
                sales := (SaleRepository.cancel (SaleService.validate_sale st).2.sales
                  (saleOfResult (SaleService.validate_sale st)).id).2 }
            (saleOfResult (SaleService.validate_sale st)).lines
            ("Annulation vente " ++
              (saleOfResult (SaleService.validate_sale st)).sale_number)).medicaments j =
          MedicamentRepository.get_by_id (SaleService.validate_sale st).2.medicaments j := by
        refine addLoop_get_ne _ _ _ j ?_
        intro l hl
        rw [hlines] at hl
        obtain ⟨it, hit, rfl⟩ := List.mem_map.mp hl
        exact hj it hit
      rw [h2, hafter_not j hj]

/-- Witness for C3 on a concrete commit-then-cancel: one line of 5 units
on stock 20, checked at medicine id 1. -/
theorem C3_commit_cancel_stock_roundtrip_witness :
    (SaleService.validate_sale stCartParaClient).1.1 = true ∧
    (SaleService.cancel_sale (SaleService.validate_sale stCartParaClient).2
        (saleOfResult (SaleService.validate_sale stCartParaClient)).id).1.1 = true ∧
    stockOf (SaleService.cancel_sale (SaleService.validate_sale stCartParaClient).2
        (saleOfResult (SaleService.validate_sale stCartParaClient)).id).2.medicaments 1 =
      stockOf stCartParaClient.medicaments 1 := by
  have h := C3_commit_cancel_stock_roundtrip stCartParaClient 1 rfl rfl
    (by decide) (by decide)
  exact ⟨h.1, h.2.1, h.2.2 1⟩

end Pharma
